import Mathlib

/-!
# Libnet: `net_client.c` and `port_forwarding.c`

A shallow embedding of the connector (`client_to_svr_extend`, `engage_authentication`,
`set_nodelay`) and of the forwarder (`port_forwarder`, `set_nonblocking`).

Conventions of the embedding.

* A system call is a question put to the environment: every function takes a record of
  the answers the operating system (or a callback) gives, and returns, next to its C
  result, the list of calls it issued, in program order.
* `errno` is a natural number; the named constants carry their Linux values.
* The UNIX branch of every `#ifdef WIN32` is embedded, and the branch without
  `IP_PORTRANGE_LOW` of the reserved-port code.
* Loops that C does not bound (`for (;;)`, `while (1)`) take a fuel argument and answer
  `none` when it runs out.
-/

namespace Libnet

/-! ## Constants of the system headers -/

def EINTR : Nat := 4

def EAGAIN : Nat := 11

def EWOULDBLOCK : Nat := 11

def EADDRINUSE : Nat := 98

def EADDRNOTAVAIL : Nat := 99

def ECONNABORTED : Nat := 103

def ETIMEDOUT : Nat := 110

def ECONNREFUSED : Nat := 111

def EINPROGRESS : Nat := 115

/-- First port above the privileged range, `IPPORT_RESERVED` of `<netinet/in.h>`. -/
def IPPORT_RESERVED : Nat := 1024

/-- The address `inet_addr` yields for malformed text, `INADDR_NONE`. -/
def INADDR_NONE : Nat := 0xffffffff

/-- Result code of the connector for a failure that a retry cannot cure, as its header
comment gives it. -/
def PBS_NET_RC_FATAL : Int := -1

/-- Result code of the connector for a failure worth a retry, as its header comment
gives it. -/
def PBS_NET_RC_RETRY : Int := -2

/-- Modelled from the spec: `net_connect.h` is not among the sources; the flag set has one
bit for "use a reserved local source port". -/
def B_RESERVED : Nat := 0x0001

/-- Modelled from the spec: `net_connect.h` is not among the sources; the flag set has one
bit for "act as the authenticating server". -/
def B_SVR : Nat := 0x0002

/-- Modelled from the spec: `libsec.h` is not among the sources; the handshake functions
return one of a small set of codes, of which `engage_authentication` names three. -/
inductive CsCode where
  | CS_SUCCESS
  | CS_FATAL_NOMEM
  | CS_FATAL_NOAUTH
  | CS_FATAL
  | CS_NOTIMPLEMENTED
  | CS_AUTH_CHECK_PORT
  | CS_AUTH_USE_IFF
  deriving DecidableEq, Repr

/-- Outcome of a system call that either fails (returns `-1` and sets `errno`) or yields
a value. -/
inductive SysRet (α : Type) where
  | error (errno : Nat)
  | ok (val : α)
  deriving DecidableEq, Repr

/-! ## `set_nodelay` -/

/-- The part of a TCP socket `set_nodelay` can observe: the stored `TCP_NODELAY` value. -/
structure TcpSock where
  nodelay : Int
  deriving DecidableEq, Repr

/-- Answers of the socket layer to the two option calls of one `set_nodelay`. -/
structure SockOptEnv where
  getsockopt_fails : Bool
  setsockopt_fails : Bool
  deriving DecidableEq, Repr

/-- Option calls issued on a descriptor. -/
inductive OptCall where
  | getsockopt (fd : Int)
  | setsockopt (fd : Int) (val : Int)
  deriving DecidableEq, Repr

/-- Result of `set_nodelay`: the C return value, the socket afterwards, the calls made. -/
structure NodelayResult where
  ret : Int
  sock : TcpSock
  calls : List OptCall
  deriving DecidableEq, Repr

/-- `setsockopt(fd, IPPROTO_TCP, TCP_NODELAY, &opt, sizeof(opt))`: on success the value is
stored and `0` is returned, on failure the socket is unchanged and `-1` is returned. -/
def setsockopt_nodelay (env : SockOptEnv) (s : TcpSock) (opt : Int) : Int × TcpSock :=
  if env.setsockopt_fails then (-1, s) else (0, { s with nodelay := opt })

/-- `set_nodelay` of net_client.c. -/
def set_nodelay (env : SockOptEnv) (fd : Int) (s : TcpSock) : NodelayResult :=
  if env.getsockopt_fails then
    { ret := 0, sock := s, calls := [OptCall.getsockopt fd] }
  else
    let opt := s.nodelay
    if opt = 1 then
      { ret := 0, sock := s, calls := [OptCall.getsockopt fd] }
    else
      let opt : Int := 1
      let r := setsockopt_nodelay env s opt
      { ret := r.1, sock := r.2, calls := [OptCall.getsockopt fd, OptCall.setsockopt fd opt] }

/-! ## `engage_authentication` and `client_to_svr_extend` -/

/-- Calls the connector issues, in the order it issues them. -/
inductive NetCall where
  | socket (ret : Int)
  | getpid
  | inet_addr
  | perror
  | get_hostaddr
  | bind (sock : Int) (port : Nat)
  | fcntl_getfl (sock : Int)
  | fcntl_setfl (sock : Int) (nonblock : Bool)
  | connect (sock : Int)
  | poll (sock : Int)
  | getsockopt_so_error (sock : Int)
  | CS_server_auth (sd : Int)
  | CS_client_auth (sd : Int)
  | CS_close_socket (sd : Int)
  | cs_logerr
  | close (sock : Int)
  deriving DecidableEq, Repr

/-- Answers of the operating system, the configuration and the security library to one
call of `client_to_svr_extend`. -/
structure ConnEnv where
  /-- Return value of `socket(AF_INET, SOCK_STREAM, 0)`. -/
  socket : Int
  getpid : Nat
  /-- Value of `inet_addr(localaddr)` when `localaddr` is not `NULL`. -/
  inet_addr : Nat
  /-- Whether `pbs_conf.pbs_public_host_name` is set. -/
  pbs_public_host_name : Bool
  /-- Value of `get_hostaddr(pbs_conf.pbs_public_host_name)`. -/
  get_hostaddr : Nat
  /-- Outcome of `bind` on the given local port. -/
  bind : Nat → SysRet Unit
  /-- Whether `fcntl(sock, F_SETFL, oflag | O_NONBLOCK)` succeeds. -/
  setfl_nonblock_ok : Bool
  connect : SysRet Unit
  /-- Outcome of the i-th call of `poll`: an error, or the number of ready descriptors. -/
  poll : Nat → SysRet Nat
  /-- Outcome of `getsockopt(SO_ERROR)`: an error, or the pending error it stores in `rc`. -/
  so_error : SysRet Int
  /-- Whether `fcntl(sock, F_SETFL, oflag)` succeeds. -/
  setfl_restore_ok : Bool
  CS_server_auth : CsCode
  CS_client_auth : CsCode
  CS_close_socket : CsCode

/-- Lines 121-147 of `engage_authentication`: the failure is logged, the security context
of the descriptor is closed, and `-1` is returned. -/
def auth_failed (env : ConnEnv) (sd : Int) : Int × List NetCall :=
  (-1, [NetCall.cs_logerr, NetCall.CS_close_socket sd] ++
    (if env.CS_close_socket ≠ CsCode.CS_SUCCESS then [NetCall.cs_logerr] else []))

/-- `engage_authentication` of net_client.c: `0` on success, `-1` otherwise. -/
def engage_authentication (env : ConnEnv) (sd : Int) (authport_flags : Nat) :
    Int × List NetCall :=
  if sd < 0 then (-1, [NetCall.cs_logerr])
  else if authport_flags &&& B_SVR ≠ 0 then
    let ret := env.CS_server_auth
    if ret = CsCode.CS_SUCCESS ∨ ret = CsCode.CS_AUTH_CHECK_PORT then
      (0, [NetCall.CS_server_auth sd])
    else
      let f := auth_failed env sd
      (f.1, NetCall.CS_server_auth sd :: f.2)
  else
    let ret := env.CS_client_auth
    if ret = CsCode.CS_SUCCESS ∨ ret = CsCode.CS_AUTH_USE_IFF then
      (0, [NetCall.CS_client_auth sd])
    else
      let f := auth_failed env sd
      (f.1, NetCall.CS_client_auth sd :: f.2)

/-- Decrement of an `unsigned short`. -/
def dec16 (x : Nat) : Nat := (x + 65535) % 65536

/-- The port the bind loop tries after `tryport` was refused:
`--tryport < IPPORT_RESERVED/2 ? IPPORT_RESERVED - 1 : tryport`. -/
def next_port (tryport : Nat) : Nat :=
  if dec16 tryport < IPPORT_RESERVED / 2 then IPPORT_RESERVED - 1 else dec16 tryport

/-- How the bind loop ends: bound at a port, or the function returns a result code. -/
inductive BindEnd where
  | bound (tryport : Nat)
  | ret (rc : Int)
  deriving DecidableEq, Repr

/-- The `for (;;)` loop of `client_to_svr_extend` that looks for a free reserved port. -/
def bind_loop (env : ConnEnv) (sock : Int) (start_port : Nat) :
    Nat → Nat → Option (BindEnd × List NetCall)
  | 0, _ => none
  | fuel + 1, tryport =>
    match env.bind tryport with
    | SysRet.ok _ => some (BindEnd.bound tryport, [NetCall.bind sock tryport])
    | SysRet.error errno =>
      if errno ≠ EADDRINUSE ∧ errno ≠ EADDRNOTAVAIL then
        some (BindEnd.ret PBS_NET_RC_FATAL, [NetCall.bind sock tryport, NetCall.close sock])
      else
        let tryport2 := next_port tryport
        if tryport2 = start_port then
          some (BindEnd.ret PBS_NET_RC_RETRY, [NetCall.bind sock tryport, NetCall.close sock])
        else
          (bind_loop env sock start_port fuel tryport2).map
            (fun r => (r.1, NetCall.bind sock tryport :: r.2))

/-- The `while (1)` loop around `poll`: it ends with the value of `rc`, where an error of
`poll` is `-1`. The second component counts the calls made. -/
def poll_loop (env : ConnEnv) : Nat → Nat → Option (Int × Nat)
  | 0, _ => none
  | fuel + 1, i =>
    match env.poll i with
    | SysRet.error errn =>
      if errn ≠ EAGAIN ∧ errn ≠ EINTR then some (-1, i + 1)
      else poll_loop env fuel (i + 1)
    | SysRet.ok rc => some ((rc : Int), i + 1)

/-- Outcome of one call of the connector: the C return value, the static `start_port`
afterwards, and the calls issued. -/
structure ConnResult where
  ret : Int
  start_port : Nat
  calls : List NetCall
  deriving DecidableEq, Repr

/-- Lines 439-466: back to blocking mode, then the handshake. -/
def finish_connect (env : ConnEnv) (sock : Int) (authport_flags : Nat) : Int × List NetCall :=
  if ¬ env.setfl_restore_ok then
    (PBS_NET_RC_FATAL, [NetCall.fcntl_setfl sock false, NetCall.close sock])
  else
    let a := engage_authentication env sock authport_flags
    if a.1 ≠ -1 then (sock, NetCall.fcntl_setfl sock false :: a.2)
    else (PBS_NET_RC_FATAL, NetCall.fcntl_setfl sock false :: a.2 ++ [NetCall.close sock])

/-- Lines 337-437 followed by `finish_connect`: the non-blocking connect. -/
def connect_phase (fuel : Nat) (env : ConnEnv) (sock : Int) (authport_flags : Nat) :
    Option (Int × List NetCall) :=
  let pre := [NetCall.fcntl_getfl sock, NetCall.fcntl_setfl sock true]
  if ¬ env.setfl_nonblock_ok then
    some (PBS_NET_RC_FATAL, pre ++ [NetCall.close sock])
  else
    let pre := pre ++ [NetCall.connect sock]
    match env.connect with
    | SysRet.ok _ =>
      let f := finish_connect env sock authport_flags
      some (f.1, pre ++ f.2)
    | SysRet.error errn =>
      if errn = EINTR ∨ errn = EADDRINUSE ∨ errn = ETIMEDOUT ∨ errn = ECONNREFUSED then
        some (PBS_NET_RC_RETRY, pre ++ [NetCall.close sock])
      else if errn = EWOULDBLOCK ∨ errn = EINPROGRESS then
        match poll_loop env fuel 0 with
        | none => none
        | some (rc, polls) =>
          let pre := pre ++ List.replicate polls (NetCall.poll sock)
          if rc = 1 then
            let pre := pre ++ [NetCall.getsockopt_so_error sock]
            let failed : Bool :=
              match env.so_error with
              | SysRet.error _ => true
              | SysRet.ok pending => decide (pending ≠ 0)
            if failed then some (PBS_NET_RC_FATAL, pre ++ [NetCall.close sock])
            else
              let f := finish_connect env sock authport_flags
              some (f.1, pre ++ f.2)
          else if rc = 0 then some (PBS_NET_RC_RETRY, pre ++ [NetCall.close sock])
          else some (PBS_NET_RC_FATAL, pre ++ [NetCall.close sock])
      else some (PBS_NET_RC_FATAL, pre ++ [NetCall.close sock])

/-- The value `start_port` takes at the top of the reserved-port block (lines 256-261). -/
def advance_start_port (env : ConnEnv) (start_port : Nat) : Nat :=
  if start_port = 0 then
    (env.getpid % (IPPORT_RESERVED / 2) + IPPORT_RESERVED / 2) % 65536
  else if dec16 start_port < IPPORT_RESERVED / 2 then IPPORT_RESERVED - 1
  else dec16 start_port

/-- `client_to_svr_extend` of net_client.c. `start_port` is the function's static
variable, passed in and handed back in the result; `localaddr` is `none` for `NULL`, and
its text matters only through what `env.inet_addr` answers. The arguments `hostaddr` and
`port` only fill the address handed to `connect`, whose answer is `env.connect`, so they
are left out. `fuel` bounds the trips through the bind loop and the `poll` retries. -/
def client_to_svr_extend (fuel : Nat) (env : ConnEnv) (start_port : Nat)
    (authport_flags : Nat) (localaddr : Option Unit) : Option ConnResult :=
  let local_port := authport_flags &&& B_RESERVED
  if local_port ≠ 0 then
    let sock := env.socket
    if sock < 0 then
      some { ret := PBS_NET_RC_FATAL, start_port := start_port, calls := [NetCall.socket sock] }
    else
      let pre := [NetCall.socket sock] ++ (if start_port = 0 then [NetCall.getpid] else [])
      let start_port := advance_start_port env start_port
      let tryport := start_port
      if localaddr.isSome ∧ env.inet_addr = INADDR_NONE then
        some { ret := PBS_NET_RC_FATAL, start_port := start_port,
               calls := pre ++ [NetCall.inet_addr, NetCall.perror] }
      else if localaddr.isNone ∧ env.pbs_public_host_name = true ∧ env.get_hostaddr = 0 then
        some { ret := PBS_NET_RC_FATAL, start_port := start_port,
               calls := pre ++ [NetCall.get_hostaddr] }
      else
        let pre := pre ++ (if localaddr.isSome then [NetCall.inet_addr]
          else if env.pbs_public_host_name then [NetCall.get_hostaddr] else [])
        match bind_loop env sock start_port fuel tryport with
        | none => none
        | some (BindEnd.ret rc, binds) =>
          some { ret := rc, start_port := start_port, calls := pre ++ binds }
        | some (BindEnd.bound tryport, binds) =>
          match connect_phase fuel env sock authport_flags with
          | none => none
          | some (rc, calls) =>
            some { ret := rc, start_port := tryport, calls := pre ++ binds ++ calls }
  else
    let sock := env.socket
    if sock < 0 then
      some { ret := PBS_NET_RC_FATAL, start_port := start_port, calls := [NetCall.socket sock] }
    else
      match connect_phase fuel env sock authport_flags with
      | none => none
      | some (rc, calls) =>
        some { ret := rc, start_port := start_port, calls := NetCall.socket sock :: calls }

/-! ## The forwarder: `set_nonblocking` and `port_forwarder` -/

/-- `O_NONBLOCK` of `<fcntl.h>`. -/
def O_NONBLOCK : Nat := 2048

/-- `set_nonblocking` of port_forwarding.c, from the answers of the two `fcntl` calls:
`1` on success, `-1` on failure. -/
def set_nonblocking (getfl : SysRet Nat) (setfl : Nat → SysRet Unit) : Int :=
  let flags : Nat :=
    match getfl with
    | SysRet.error _ => 0
    | SysRet.ok f => f
  match setfl (flags ||| O_NONBLOCK) with
  | SysRet.error _ => -1
  | SysRet.ok _ => 1

/-- One entry of the table, `struct pfwdsock`. The header that declares it is not among
the sources; the fields are those `port_forwarder` reads and writes. `buff` lists the
bytes stored so far, a cell beyond its end reads as `0`. -/
structure pfwdsock where
  sock : Int
  listening : Int
  remotesock : Int
  bufavail : Int
  bufwritten : Int
  active : Int
  peer : Nat
  buff : List Nat
  deriving DecidableEq, Repr

/-- A zeroed table entry. -/
def pfwdsock.zero : pfwdsock :=
  { sock := 0, listening := 0, remotesock := 0, bufavail := 0, bufwritten := 0,
    active := 0, peer := 0, buff := [] }

/-- Compile-time constants and arguments of `port_forwarder` that stay fixed in a run.
`NUM_SOCKS` and `PF_BUF_SIZE` come from the header that is not among the sources. -/
structure PfParams where
  NUM_SOCKS : Nat
  PF_BUF_SIZE : Nat
  inter_read_sock : Int
  deriving DecidableEq, Repr

/-- Messages handed to `PF_LOGGER`. -/
inductive PfMsg where
  | set_nonblocking_failed (fd : Int)
  | set_nodelay_failed (fd : Int)
  | select_error
  | exception (fd : Int)
  | readfunc_failed (fd : Int)
  | accept_failure (fd : Int)
  | read_failure (fd : Int)
  | write_failure (fd : Int)
  deriving DecidableEq, Repr

/-- Calls the forwarder issues. `read` and `write` carry the slot index being processed,
the descriptor and the answer; `write` also carries the bytes that went out. -/
inductive PfCall where
  | select
  | readfunc (fd : Int)
  | accept (n : Nat) (fd : Int) (ret : SysRet Nat)
  | set_nonblocking (fd : Int) (ret : Int)
  | set_nodelay (fd : Int) (ret : Int)
  | connfunc (ret : Int)
  | read (n : Nat) (fd : Int) (count : Int) (ret : SysRet (List Nat))
  | write (n : Nat) (fd : Int) (count : Int) (ret : SysRet Nat) (sent : List Nat)
  | shutdown (fd : Int)
  | close (fd : Int)
  | log (msg : PfMsg)
  deriving DecidableEq, Repr

/-- Answers of the environment during one pass of the main loop (and during the set-up
loop). Calls made while slot `n` is processed are indexed by `n`; `read` and `write`
are also given the byte count asked for. -/
structure IterEnv where
  /-- Value of `x11_reader_go` when the loop condition is tested. -/
  x11_reader_go : Bool
  select : SysRet Unit
  /-- Descriptors `select` reports readable, writable, exceptional. -/
  rready : Int → Bool
  wready : Int → Bool
  eready : Int → Bool
  readfunc : Int
  accept : Nat → SysRet Nat
  fcntl_getfl : Int → SysRet Nat
  fcntl_setfl : Int → Nat → SysRet Unit
  set_nodelay : Int → Int
  connfunc : Nat → Int
  read : Nat → Int → SysRet (List Nat)
  write : Nat → Int → SysRet Nat

/-- The table, the calls issued so far, and whether `port_forwarder` has left its loop. -/
structure PfState where
  socks : List pfwdsock
  calls : List PfCall
  done : Bool
  deriving DecidableEq, Repr

/-- The entry `socks + n`. An index outside the table has no meaning in C; here it reads
as the zeroed entry. Every index the loop computes itself lies inside the table. -/
def getSlot (socks : List pfwdsock) (n : Nat) : pfwdsock := socks.getD n pfwdsock.zero

/-- Store through `socks + n` (dropped for an index outside the table). -/
def modSlot (socks : List pfwdsock) (n : Nat) (f : pfwdsock → pfwdsock) : List pfwdsock :=
  socks.set n (f (getSlot socks n))

/-- The `len` bytes of the buffer from offset `off`. -/
def buf_slice (buff : List Nat) (off len : Nat) : List Nat :=
  (List.range len).map (fun i => buff.getD (off + i) 0)

/-- The buffer after `data` was stored from offset `off`. -/
def buf_store (buff : List Nat) (off : Nat) (data : List Nat) : List Nat :=
  (List.range (max buff.length (off + data.length))).map
    (fun i => if off ≤ i ∧ i < off + data.length then data.getD (i - off) 0 else buff.getD i 0)

/-- Descriptor sets, as membership tests. -/
structure FdSets where
  r : Int → Bool
  w : Int → Bool
  e : Int → Bool

/-- `FD_SET(fd, set)`. -/
def FD_SET (fd : Int) (set : Int → Bool) : Int → Bool := fun x => decide (x = fd) || set x

/-- Body of the loop of lines 103-122 for slot `n`. -/
def watch_slot (P : PfParams) (socks : List pfwdsock) (sets : FdSets) (n : Nat) : FdSets :=
  let s := getSlot socks n
  if s.active = 0 ∨ s.sock < 0 then sets
  else if s.listening ≠ 0 then { sets with r := FD_SET s.sock sets.r }
  else
    let sets1 : FdSets :=
      if s.bufavail < P.PF_BUF_SIZE then { sets with r := FD_SET s.sock sets.r } else sets
    let p := getSlot socks s.peer
    if p.bufavail - p.bufwritten > 0 then { sets1 with w := FD_SET s.sock sets1.w } else sets1

/-- The three sets handed to `select` (lines 96-122). -/
def watch (P : PfParams) (socks : List pfwdsock) : FdSets :=
  let none : Int → Bool := fun _ => false
  let init : FdSets :=
    { r := FD_SET P.inter_read_sock none, w := none, e := FD_SET P.inter_read_sock none }
  (List.range P.NUM_SOCKS).foldl (watch_slot P socks) init

/-- The sets after `select`: what was asked for and is reported ready. -/
def selected (env : IterEnv) (asked : FdSets) : FdSets :=
  { r := fun fd => asked.r fd && env.rready fd,
    w := fun fd => asked.w fd && env.wready fd,
    e := fun fd => asked.e fd && env.eready fd }

/-- Append calls to the state. -/
def PfState.emit (st : PfState) (cs : List PfCall) : PfState :=
  { st with calls := st.calls ++ cs }

/-- `shutdown(sock, SHUT_RDWR); close(sock); active = 0` on slot `n`. -/
def tear_down (n : Nat) (st : PfState) : PfState :=
  let fd := (getSlot st.socks n).sock
  { st with socks := modSlot st.socks n (fun s => { s with active := 0 }),
            calls := st.calls ++ [PfCall.shutdown fd, PfCall.close fd] }

/-- The scan of lines 195-205 over the slot indices still to visit. -/
def scan_free (socks : List pfwdsock) : List Nat → Nat → Nat → Nat × Nat
  | [], newsock, peersock => (newsock, peersock)
  | n2 :: rest, newsock, peersock =>
    let s := getSlot socks n2
    if s.active ≠ 0 ∨ (s.peer ≠ 0 ∧ (getSlot socks s.peer).active ≠ 0) then
      scan_free socks rest newsock peersock
    else if newsock = 0 then scan_free socks rest n2 peersock
    else if peersock = 0 then scan_free socks rest newsock n2
    else (newsock, peersock)

/-- The error numbers after which `read` and `write` are simply tried again later. -/
def io_transient (errno : Nat) : Bool :=
  decide (errno = EWOULDBLOCK ∨ errno = EAGAIN ∨ errno = EINTR ∨ errno = EINPROGRESS)

/-- Lines 160-235: slot `n` is a listening slot reported readable. The flag of the
result says whether the C code reached a `continue`. -/
def accept_step (P : PfParams) (env : IterEnv) (n : Nat) (st : PfState) : Bool × PfState :=
  let lfd := (getSlot st.socks n).sock
  match env.accept n with
  | SysRet.error errno =>
    let st := st.emit [PfCall.accept n lfd (SysRet.error errno)]
    if errno = EAGAIN ∨ errno = EWOULDBLOCK ∨ errno = EINTR ∨ errno = ECONNABORTED then
      (true, st)
    else
      (true, { st with socks := modSlot st.socks n (fun s => { s with active := 0 }),
                       calls := st.calls ++ [PfCall.log (PfMsg.accept_failure lfd),
                                             PfCall.close lfd] })
  | SysRet.ok fd =>
    let sock : Int := fd
    let st := st.emit [PfCall.accept n lfd (SysRet.ok fd)]
    let nb := set_nonblocking (env.fcntl_getfl sock) (env.fcntl_setfl sock)
    if nb = -1 then
      (true, st.emit [PfCall.set_nonblocking sock nb,
                      PfCall.log (PfMsg.set_nonblocking_failed sock), PfCall.close sock])
    else
      let st := st.emit ([PfCall.set_nonblocking sock nb, PfCall.set_nodelay sock (env.set_nodelay sock)]
        ++ (if env.set_nodelay sock = -1 then [PfCall.log (PfMsg.set_nodelay_failed sock)] else []))
      let found := scan_free st.socks (List.range P.NUM_SOCKS) 0 0
      let newsock := found.1
      let peersock := found.2
      let socks := modSlot st.socks peersock (fun s => { s with remotesock := sock })
      let socks := modSlot socks newsock (fun s => { s with sock := sock })
      let socks := modSlot socks peersock (fun s => { s with listening := 0 })
      let socks := modSlot socks newsock (fun s => { s with listening := 0 })
      let socks := modSlot socks peersock (fun s => { s with active := 1 })
      let socks := modSlot socks newsock (fun s => { s with active := 1 })
      let psock := env.connfunc n
      let socks := modSlot socks peersock (fun s => { s with sock := psock })
      let st := { st with socks := socks, calls := st.calls ++ [PfCall.connfunc psock] }
      let nb2 := set_nonblocking (env.fcntl_getfl psock) (env.fcntl_setfl psock)
      if nb2 = -1 then
        (true, { st with socks := modSlot st.socks peersock (fun s => { s with active := 0 }),
                         calls := st.calls ++ [PfCall.set_nonblocking psock nb2,
                                               PfCall.log (PfMsg.set_nonblocking_failed psock),
                                               PfCall.close psock] })
      else
        let st := st.emit ([PfCall.set_nonblocking psock nb2,
                            PfCall.set_nodelay psock (env.set_nodelay psock)]
          ++ (if env.set_nodelay psock = -1 then [PfCall.log (PfMsg.set_nodelay_failed psock)] else []))
        let socks := modSlot st.socks peersock (fun s => { s with bufwritten := 0 })
        let socks := modSlot socks newsock (fun s => { s with bufwritten := 0 })
        let socks := modSlot socks peersock (fun s => { s with bufavail := 0 })
        let socks := modSlot socks newsock (fun s => { s with bufavail := 0 })
        let socks := modSlot socks peersock (fun s => { s with buff := buf_store s.buff 0 [0] })
        let socks := modSlot socks newsock (fun s => { s with buff := buf_store s.buff 0 [0] })
        let socks := modSlot socks newsock (fun s => { s with peer := peersock })
        let socks := modSlot socks peersock (fun s => { s with peer := newsock })
        (false, { st with socks := socks })

/-- Lines 237-259: slot `n` is a data slot reported readable. -/
def data_read_step (P : PfParams) (env : IterEnv) (n : Nat) (st : PfState) : Bool × PfState :=
  let s := getSlot st.socks n
  let count : Int := (P.PF_BUF_SIZE : Int) - s.bufavail
  let ret := env.read n count
  let st := st.emit [PfCall.read n s.sock count ret]
  match ret with
  | SysRet.error errno =>
    if io_transient errno then (true, st)
    else (false, (tear_down n st).emit [PfCall.log (PfMsg.read_failure s.sock)])
  | SysRet.ok data =>
    if data.length = 0 then (false, tear_down n st)
    else
      (false, { st with socks := modSlot st.socks n (fun s =>
        { s with buff := buf_store s.buff s.bufavail.toNat data,
                 bufavail := s.bufavail + data.length }) })

/-- Lines 159-261: the part of the pass guarded by `FD_ISSET(sock, &rfdset)`. -/
def read_step (P : PfParams) (env : IterEnv) (fds : FdSets) (n : Nat) (st : PfState) :
    Bool × PfState :=
  let s := getSlot st.socks n
  if fds.r s.sock then
    if s.listening ≠ 0 ∧ s.active ≠ 0 then accept_step P env n st
    else data_read_step P env n st
  else (false, st)

/-- Lines 262-288: the part of the pass guarded by `FD_ISSET(sock, &wfdset)`. -/
def write_step (env : IterEnv) (fds : FdSets) (n : Nat) (st : PfState) : Bool × PfState :=
  let s := getSlot st.socks n
  if fds.w s.sock then
    let peer := s.peer
    let p := getSlot st.socks peer
    let count : Int := p.bufavail - p.bufwritten
    let ret := env.write n count
    match ret with
    | SysRet.error errno =>
      let st := st.emit [PfCall.write n s.sock count ret []]
      if io_transient errno then (true, st)
      else (false, (tear_down n st).emit [PfCall.log (PfMsg.write_failure s.sock)])
    | SysRet.ok k =>
      let st := st.emit [PfCall.write n s.sock count ret (buf_slice p.buff p.bufwritten.toNat k)]
      if k = 0 then (false, tear_down n st)
      else
        (false, { st with socks := modSlot st.socks peer (fun p =>
          { p with bufwritten := p.bufwritten + k }) })
  else (false, st)

/-- Lines 289-300: buffer reclamation and cascading teardown. -/
def reclaim_step (n : Nat) (st : PfState) : PfState :=
  let s := getSlot st.socks n
  if s.listening = 0 then
    let peer := s.peer
    let p := getSlot st.socks peer
    let st1 : PfState :=
      if p.bufavail = p.bufwritten then
        { st with socks := modSlot st.socks peer (fun p => { p with bufwritten := 0, bufavail := 0 }) }
      else st
    let p1 := getSlot st1.socks peer
    if p1.active = 0 ∧ p1.bufwritten = p1.bufavail then tear_down n st1 else st1
  else st

/-- Body of the loop of lines 156-302 for slot `n`. -/
def slot_pass (P : PfParams) (env : IterEnv) (fds : FdSets) (st : PfState) (n : Nat) : PfState :=
  let s := getSlot st.socks n
  if s.active = 0 ∨ s.sock < 0 then st
  else
    let r := read_step P env fds n st
    if r.1 then r.2
    else
      let w := write_step env fds n r.2
      if w.1 then w.2
      else reclaim_step n w.2

/-- One trip through `while (x11_reader_go)`, lines 95-305. -/
def main_iter (P : PfParams) (st : PfState) (env : IterEnv) : PfState :=
  if st.done then st
  else if ¬ env.x11_reader_go then { st with done := true }
  else
    let asked := watch P st.socks
    let st := st.emit [PfCall.select]
    match env.select with
    | SysRet.error errno =>
      if errno = EINTR then st
      else { st with calls := st.calls ++ [PfCall.log PfMsg.select_error], done := true }
    | SysRet.ok _ =>
      let fds := selected env asked
      if fds.e P.inter_read_sock then
        { st with calls := st.calls ++ [PfCall.log (PfMsg.exception P.inter_read_sock),
                                        PfCall.close P.inter_read_sock],
                  done := true }
      else
        let readable := fds.r P.inter_read_sock
        let readfunc_ret := env.readfunc
        let st :=
          if readable then
            st.emit ([PfCall.readfunc P.inter_read_sock] ++
              (if readfunc_ret = -1 then [PfCall.log (PfMsg.readfunc_failed P.inter_read_sock)]
               else []))
          else st
        if readable ∧ readfunc_ret < 0 then { st with done := true }
        else (List.range P.NUM_SOCKS).foldl (slot_pass P env fds) st

/-- Body of the set-up loop of lines 75-93 for slot `n`. -/
def setup_slot (env : IterEnv) (st : PfState) (n : Nat) : PfState :=
  let s := getSlot st.socks n
  if s.active = 0 ∨ s.sock < 0 then st
  else
    let nb := set_nonblocking (env.fcntl_getfl s.sock) (env.fcntl_setfl s.sock)
    if nb = -1 then
      { st with socks := modSlot st.socks n (fun s => { s with active := 0 }),
                calls := st.calls ++ [PfCall.set_nonblocking s.sock nb, PfCall.close s.sock,
                                      PfCall.log (PfMsg.set_nonblocking_failed s.sock)] }
    else
      st.emit ([PfCall.set_nonblocking s.sock nb, PfCall.set_nodelay s.sock (env.set_nodelay s.sock)]
        ++ (if env.set_nodelay s.sock = -1 then [PfCall.log (PfMsg.set_nodelay_failed s.sock)] else []))

/-- The main loop run over the given passes, from the state the set-up left. -/
def forward_loop (P : PfParams) (envs : List IterEnv) (st : PfState) : PfState :=
  envs.foldl (main_iter P) st

/-- `port_forwarder` of port_forwarding.c, observed over finitely many trips through its
loop: `env0` answers the set-up loop, `envs` the successive passes. -/
def port_forwarder (P : PfParams) (env0 : IterEnv) (envs : List IterEnv)
    (socks : List pfwdsock) : PfState :=
  let st0 : PfState := { socks := socks, calls := [], done := false }
  forward_loop P envs ((List.range P.NUM_SOCKS).foldl (setup_slot env0) st0)

/-! ## Observations on call lists, and the conditions the claims speak of -/

/-- The local ports handed to `bind`, in the order they were tried. -/
def tried_ports (calls : List NetCall) : List Nat :=
  calls.filterMap fun c =>
    match c with
    | NetCall.bind _ port => some port
    | _ => none

/-- The port at which a call starts its search: the first port it hands to `bind`. -/
def search_start (r : ConnResult) : Option Nat := (tried_ports r.calls).head?

/-- The i-th port of the downward walk that starts at `s` and wraps from
`IPPORT_RESERVED/2` to `IPPORT_RESERVED - 1`. -/
def port_at (s i : Nat) : Nat :=
  if i ≤ s - IPPORT_RESERVED / 2 then s - i else s + IPPORT_RESERVED / 2 - i

/-- The port is refused with `EADDRINUSE` or `EADDRNOTAVAIL`. -/
def BindSoft (env : ConnEnv) (port : Nat) : Prop :=
  ∃ e, env.bind port = SysRet.error e ∧ (e = EADDRINUSE ∨ e = EADDRNOTAVAIL)

/-- Values the static `start_port` can hold: its initial `0`, or a reserved port of the
upper half. -/
def StartPortOk (start_port : Nat) : Prop :=
  start_port = 0 ∨ (IPPORT_RESERVED / 2 ≤ start_port ∧ start_port ≤ IPPORT_RESERVED - 1)

/-- A port of the range the binder walks. -/
def InRange (p : Nat) : Prop := IPPORT_RESERVED / 2 ≤ p ∧ p ≤ IPPORT_RESERVED - 1

/-- A call with `B_RESERVED` set gets as far as the bind loop: the socket was created, a
supplied `localaddr` is well-formed, a configured public host name resolves. -/
def ReachesBind (env : ConnEnv) (authport_flags : Nat) (localaddr : Option Unit) : Prop :=
  authport_flags &&& B_RESERVED ≠ 0 ∧ 0 ≤ env.socket ∧
  ¬ (localaddr.isSome ∧ env.inet_addr = INADDR_NONE) ∧
  ¬ (localaddr.isNone ∧ env.pbs_public_host_name = true ∧ env.get_hostaddr = 0)

/-- The calls a call with `B_RESERVED` issues before its bind loop. -/
def reserved_pre (env : ConnEnv) (start_port : Nat) (localaddr : Option Unit) : List NetCall :=
  [NetCall.socket env.socket] ++ (if start_port = 0 then [NetCall.getpid] else []) ++
    (if localaddr.isSome then [NetCall.inet_addr]
     else if env.pbs_public_host_name then [NetCall.get_hostaddr] else [])

/-- The call gets as far as `connect`. -/
def ReachesConnect (fuel : Nat) (env : ConnEnv) (start_port authport_flags : Nat)
    (localaddr : Option Unit) : Prop :=
  0 ≤ env.socket ∧ env.setfl_nonblock_ok = true ∧
  (authport_flags &&& B_RESERVED ≠ 0 →
    ¬ (localaddr.isSome ∧ env.inet_addr = INADDR_NONE) ∧
    ¬ (localaddr.isNone ∧ env.pbs_public_host_name = true ∧ env.get_hostaddr = 0) ∧
    ∃ p binds, bind_loop env env.socket (advance_start_port env start_port) fuel
      (advance_start_port env start_port) = some (BindEnd.bound p, binds))

/-- The first `k` calls of `poll` fail with `EAGAIN` or `EINTR`. -/
def PollRetries (env : ConnEnv) (k : Nat) : Prop :=
  ∀ i, i < k → ∃ pe, env.poll i = SysRet.error pe ∧ (pe = EAGAIN ∨ pe = EINTR)

def ConnectTransient (fuel : Nat) (env : ConnEnv) : Prop :=
  (∃ e, env.connect = SysRet.error e ∧
    (e = EINTR ∨ e = EADDRINUSE ∨ e = ETIMEDOUT ∨ e = ECONNREFUSED)) ∨
  (∃ e k, env.connect = SysRet.error e ∧ (e = EWOULDBLOCK ∨ e = EINPROGRESS) ∧
    k < fuel ∧ PollRetries env k ∧ env.poll k = SysRet.ok 0)

/-- The connection gets established: `connect` succeeds at once, or it is in progress,
`poll` (after `k` interrupted calls) reports the socket ready and no error is pending. -/
def ConnectEstablished (fuel : Nat) (env : ConnEnv) : Prop :=
  env.connect = SysRet.ok () ∨
  (∃ e k, env.connect = SysRet.error e ∧ (e = EWOULDBLOCK ∨ e = EINPROGRESS) ∧
    k < fuel ∧ PollRetries env k ∧ env.poll k = SysRet.ok 1 ∧ env.so_error = SysRet.ok 0)

/-- The code the handshake of the selected role returns. -/
def handshake_code (env : ConnEnv) (authport_flags : Nat) : CsCode :=
  if authport_flags &&& B_SVR ≠ 0 then env.CS_server_auth else env.CS_client_auth

/-- The handshake call of the selected role. -/
def handshake_call (sd : Int) (authport_flags : Nat) : NetCall :=
  if authport_flags &&& B_SVR ≠ 0 then NetCall.CS_server_auth sd else NetCall.CS_client_auth sd

/-- Success codes as the claim lists them: `CS_SUCCESS`, or `CS_AUTH_USE_IFF` on the
client path. -/
def ClaimedSuccess (authport_flags : Nat) (c : CsCode) : Prop :=
  c = CsCode.CS_SUCCESS ∨ (authport_flags &&& B_SVR = 0 ∧ c = CsCode.CS_AUTH_USE_IFF)

/-- Success codes as `engage_authentication` tests them: the claimed ones, and
`CS_AUTH_CHECK_PORT` on the server path. -/
def RecognisedSuccess (authport_flags : Nat) (c : CsCode) : Prop :=
  ClaimedSuccess authport_flags c ∨
    (authport_flags &&& B_SVR ≠ 0 ∧ c = CsCode.CS_AUTH_CHECK_PORT)

/-- The counters of one entry respect `0 <= bufwritten <= bufavail <= PF_BUF_SIZE`. -/
def Bounds (P : PfParams) (s : pfwdsock) : Prop :=
  0 ≤ s.bufwritten ∧ s.bufwritten ≤ s.bufavail ∧ s.bufavail ≤ (P.PF_BUF_SIZE : Int)

/-- Every entry of the table respects the bounds. -/
def AllBounds (P : PfParams) (socks : List pfwdsock) : Prop := ∀ s ∈ socks, Bounds P s

/-- Every `read` and `write` returns at most the byte count it was asked for. -/
def IoBounded (env : IterEnv) : Prop :=
  (∀ n count data, env.read n count = SysRet.ok data → (data.length : Int) ≤ count) ∧
  (∀ n count k, env.write n count = SysRet.ok k → (k : Int) ≤ count)

/-- The bytes that successful writes have put on descriptor `fd`, in order. -/
def sent_on (fd : Int) (calls : List PfCall) : List Nat :=
  (calls.map fun c =>
    match c with
    | PfCall.write _ f _ (SysRet.ok _) sent => if f = fd then sent else []
    | _ => []).flatten

/-- The bytes that successful reads have taken from descriptor `fd`, in order. -/
def received_from (fd : Int) (calls : List PfCall) : List Nat :=
  (calls.map fun c =>
    match c with
    | PfCall.read _ f _ (SysRet.ok data) => if f = fd then data else []
    | _ => []).flatten

/-! ## Concrete environments and runs -/

/-- A connector environment in which everything succeeds: descriptor 5, process 4711,
every port free, `connect` succeeds at once, the handshake returns `CS_SUCCESS`. -/
def smooth_conn : ConnEnv :=
  { socket := 5
    getpid := 4711
    inet_addr := 0x7f000001
    pbs_public_host_name := false
    get_hostaddr := 0
    bind := fun _ => SysRet.ok ()
    setfl_nonblock_ok := true
    connect := SysRet.ok ()
    poll := fun _ => SysRet.ok 1
    so_error := SysRet.ok 0
    setfl_restore_ok := true
    CS_server_auth := CsCode.CS_SUCCESS
    CS_client_auth := CsCode.CS_SUCCESS
    CS_close_socket := CsCode.CS_SUCCESS }

/-- As `smooth_conn`, but every reserved port except `free` is in use. -/
def one_free_port_conn (free : Nat) : ConnEnv :=
  { smooth_conn with
    bind := fun p => if p = free then SysRet.ok () else SysRet.error EADDRINUSE }

/-- As `smooth_conn`, but `connect` is in progress, the first `poll` is interrupted and
the second one times out. -/
def slow_connect_conn : ConnEnv :=
  { smooth_conn with
    connect := SysRet.error EINPROGRESS
    poll := fun i => if i = 0 then SysRet.error EINTR else SysRet.ok 0 }

/-- As `smooth_conn`, but the server handshake returns `CS_AUTH_CHECK_PORT`. -/
def check_port_conn : ConnEnv :=
  { smooth_conn with CS_server_auth := CsCode.CS_AUTH_CHECK_PORT }

/-- As `smooth_conn`, but every reserved port is in use. -/
def all_busy_conn : ConnEnv :=
  { smooth_conn with bind := fun _ => SysRet.error EADDRINUSE }

/-- As `smooth_conn`, but port 615 is in use and `bind` is denied (`EACCES`, 13) on
every other port. -/
def bind_denied_conn : ConnEnv :=
  { smooth_conn with
    bind := fun p => if p = 615 then SysRet.error EADDRINUSE else SysRet.error 13 }

/-- What the first call of a process returns under `smooth_conn` with `B_RESERVED`. -/
def first_smooth_result : ConnResult :=
  { ret := 5, start_port := 615,
    calls := [NetCall.socket 5, NetCall.getpid, NetCall.bind 5 615, NetCall.fcntl_getfl 5,
              NetCall.fcntl_setfl 5 true, NetCall.connect 5, NetCall.fcntl_setfl 5 false,
              NetCall.CS_client_auth 5] }

/-- What the call after `first_smooth_result` returns under `smooth_conn`. -/
def second_smooth_result : ConnResult :=
  { ret := 5, start_port := 614,
    calls := [NetCall.socket 5, NetCall.bind 5 614, NetCall.fcntl_getfl 5,
              NetCall.fcntl_setfl 5 true, NetCall.connect 5, NetCall.fcntl_setfl 5 false,
              NetCall.CS_client_auth 5] }

/-- A table of 64 entries with 8192-byte buffers; the control descriptor is 9. -/
def demo_params : PfParams := { NUM_SOCKS := 64, PF_BUF_SIZE := 8192, inter_read_sock := 9 }

/-- The table a caller hands over: slot 0 listens on descriptor 3, the rest is zeroed. -/
def demo_table : List pfwdsock :=
  { pfwdsock.zero with sock := 3, listening := 1, active := 1 } :: List.replicate 63 pfwdsock.zero

/-- A pass in which `select` reports nothing. `fcntl` fails on a negative descriptor
(`EBADF`) and succeeds otherwise. -/
def quiet_env : IterEnv :=
  { x11_reader_go := true
    select := SysRet.ok ()
    rready := fun _ => false
    wready := fun _ => false
    eready := fun _ => false
    readfunc := 0
    accept := fun _ => SysRet.error EAGAIN
    fcntl_getfl := fun fd => if fd < 0 then SysRet.error 9 else SysRet.ok 2
    fcntl_setfl := fun fd _ => if fd < 0 then SysRet.error 9 else SysRet.ok ()
    set_nodelay := fun _ => 0
    connfunc := fun _ => -1
    read := fun _ _ => SysRet.error EAGAIN
    write := fun _ _ => SysRet.error EAGAIN }

/-- A pass in which the listening descriptor 3 is readable, `accept` yields `fd` and the
dial-out callback returns `dial`. -/
def accept_env (fd : Nat) (dial : Int) : IterEnv :=
  { quiet_env with
    rready := fun x => decide (x = 3)
    accept := fun _ => SysRet.ok fd
    connfunc := fun _ => dial }

/-- A pass in which the descriptors `fds` are readable and `read` yields `data`
(no bytes: the peer has closed), as long as the bytes fit the count asked for. -/
def read_env (fds : List Int) (data : List Nat) : IterEnv :=
  { quiet_env with
    rready := fun x => fds.contains x
    read := fun _ count => if (data.length : Int) ≤ count then SysRet.ok data
                           else SysRet.error EAGAIN }

/-- A pass in which descriptor `fd` is writable and `write` takes `k` bytes, as long as
that many were offered. -/
def write_env (fd : Int) (k : Nat) : IterEnv :=
  { quiet_env with
    wready := fun x => decide (x = fd)
    write := fun _ count => if (k : Int) ≤ count then SysRet.ok k else SysRet.error EAGAIN }

/-- Nine passes: a dial-out fails, a pair forms on slots 2 and 3, all three data slots
close, a pair forms on slots 1 and 2 (descriptors 13 and 14), slot 2 receives four bytes
and then end-of-file, a second dial-out fails and leaves slot 3 active, slot 3 writes two
bytes, slot 1 writes two bytes. -/
def stolen_bytes_run : List IterEnv :=
  [accept_env 10 (-1), accept_env 11 12, read_env [10, 11] [], accept_env 13 14,
   read_env [14] [80, 73, 78, 71], read_env [14] [], accept_env 15 (-1),
   write_env 15 2, write_env 13 2]

/-! ## Slot allocation, teardown and descriptor use: observations and runs -/

/-- The scan's test of lines 196-197, negated: slot `n` passes for free. -/
def is_free (socks : List pfwdsock) (n : Nat) : Bool :=
  decide ((getSlot socks n).active = 0 ∧
    ¬ ((getSlot socks n).peer ≠ 0 ∧ (getSlot socks (getSlot socks n).peer).active ≠ 0))

/-- The slots of the table that pass for free, in the order the scan meets them. -/
def free_slots (P : PfParams) (socks : List pfwdsock) : List Nat :=
  (List.range P.NUM_SOCKS).filter (is_free socks)

/-- The call is a `read`, `write`, `shutdown` or `close` on descriptor `fd`. -/
def on_socket (fd : Int) : PfCall → Bool
  | PfCall.read _ f _ _ => decide (f = fd)
  | PfCall.write _ f _ _ _ => decide (f = fd)
  | PfCall.shutdown f => decide (f = fd)
  | PfCall.close f => decide (f = fd)
  | _ => false

/-- The calls issued on descriptor `fd` after its first `close`. -/
def used_after_close (fd : Int) (calls : List PfCall) : List PfCall :=
  ((calls.dropWhile (fun c => decide (c ≠ PfCall.close fd))).drop 1).filter (on_socket fd)

/-- The calls of the last pass of a run: those that follow its last `select`. -/
def last_pass (calls : List PfCall) : List PfCall :=
  (calls.reverse.takeWhile (fun c => decide (c ≠ PfCall.select))).reverse

/-- Three passes: a connection is accepted on descriptor 10 and its dial-out fails; a
pass in which nothing is ready; a pass in which descriptor 10 delivers two bytes. -/
def failed_dial_run : List IterEnv :=
  [accept_env 10 (-1), quiet_env, read_env [10] [72, 73]]

/-- Passes in which a connection is accepted and dialled out, `k` of them; the i-th one
uses the descriptors `200 + 2 * i` and `201 + 2 * i`. -/
def accept_burst (k : Nat) : List IterEnv :=
  (List.range k).map (fun i => accept_env (200 + 2 * i) (201 + 2 * (i : Int)))

/-- The table with 31 forwarded connections: slot 0 listens on descriptor 3, the slots
`2 * i + 1` and `2 * i + 2` are the accepted side and the dial-out side of the i-th
connection, slot 63 is zeroed. -/
def burst_table : List pfwdsock :=
  { pfwdsock.zero with sock := 3, listening := 1, active := 1 } ::
    ((List.range 31).flatMap (fun i =>
      [{ pfwdsock.zero with sock := 200 + 2 * (i : Int), active := 1, peer := 2 * i + 2,
                            buff := [0] },
       { pfwdsock.zero with sock := 201 + 2 * (i : Int), remotesock := 200 + 2 * (i : Int),
                            active := 1, peer := 2 * i + 1, buff := [0] }])
    ++ [pfwdsock.zero])

/-- A pass in which descriptor `fd` is readable and writable, `read` reports the end of
the stream, and `write` fails with `EBADF` (9), as it does on a closed descriptor. -/
def eof_writable_env (fd : Int) : IterEnv :=
  { quiet_env with
    rready := fun x => decide (x = fd)
    wready := fun x => decide (x = fd)
    read := fun _ _ => SysRet.ok []
    write := fun _ _ => SysRet.error 9 }

/-- Three passes: a pair forms on slots 1 and 2 (descriptors 13 and 14), slot 2 receives
four bytes, and then descriptor 13 is readable (end of stream) and writable at once. -/
def write_after_close_run : List IterEnv :=
  [accept_env 13 14, read_env [14] [80, 73, 78, 71], eof_writable_env 13]

/-- Three passes: a pair forms on slots 1 and 2 (descriptors 13 and 14), descriptor 14
reports the end of its stream, then descriptor 13 reports the end of its stream. -/
def double_close_run : List IterEnv :=
  [accept_env 13 14, read_env [14] [], read_env [13] []]

/-- As `smooth_conn`, but the text of `localaddr` is no address: `inet_addr` yields
`INADDR_NONE`. -/
def malformed_localaddr_conn : ConnEnv := { smooth_conn with inet_addr := INADDR_NONE }

/-- As `smooth_conn`, but a public host name is configured and does not resolve. -/
def unresolved_host_conn : ConnEnv :=
  { smooth_conn with pbs_public_host_name := true, get_hostaddr := 0 }

/-! ## Orderly close of a slot whose peer points back at it: conditions -/

/-- The bytes of an entry's buffer that were read in and not yet written out. -/
def unflushed (s : pfwdsock) : List Nat :=
  buf_slice s.buff s.bufwritten.toNat (s.bufavail - s.bufwritten).toNat

/-- Slot `p` is an active data slot of the table whose peer index is `n`, another slot,
and the buffer of slot `n` holds unflushed bytes. -/
def Draining (P : PfParams) (socks : List pfwdsock) (n p : Nat) : Prop :=
  p < P.NUM_SOCKS ∧ p ≠ n ∧
  (getSlot socks p).active ≠ 0 ∧ 0 ≤ (getSlot socks p).sock ∧
  (getSlot socks p).listening = 0 ∧ (getSlot socks p).peer = n ∧
  0 ≤ (getSlot socks n).bufwritten ∧ (getSlot socks n).bufwritten < (getSlot socks n).bufavail

/-- Slot `n` is processed as an active data slot paired with the active slot `p`, its
buffer holds unflushed bytes, its descriptor is reported readable and `read` returns 0. -/
def OrderlyClose (P : PfParams) (env : IterEnv) (fds : FdSets) (st : PfState) (n p : Nat) :
    Prop :=
  Draining P st.socks n p ∧
  (getSlot st.socks n).active ≠ 0 ∧ 0 ≤ (getSlot st.socks n).sock ∧
  (getSlot st.socks n).listening = 0 ∧ (getSlot st.socks n).peer = p ∧
  fds.r (getSlot st.socks n).sock = true ∧
  env.read n ((P.PF_BUF_SIZE : Int) - (getSlot st.socks n).bufavail) = SysRet.ok []

/-- The answer of `read` after which the read step tears the slot down. -/
def ReadEnds : SysRet (List Nat) → Prop
  | SysRet.error e => io_transient e = false
  | SysRet.ok data => data.length = 0

/-- The answer of `write` after which the write step tears the slot down. -/
def WriteEnds : SysRet Nat → Prop
  | SysRet.error e => io_transient e = false
  | SysRet.ok k => k = 0

/-- In the pass over slot `p`, an operation on the slot's own descriptor ends it: the
descriptor is reported readable and `read` fails or returns 0, or it is reported writable
and `write` fails or returns 0. -/
def OwnIoEnds (P : PfParams) (env : IterEnv) (fds : FdSets) (st : PfState) (p : Nat) : Prop :=
  (fds.r (getSlot st.socks p).sock = true ∧
    ReadEnds (env.read p ((P.PF_BUF_SIZE : Int) - (getSlot st.socks p).bufavail))) ∨
  (fds.w (getSlot st.socks p).sock = true ∧
    WriteEnds (env.write p ((getSlot st.socks (getSlot st.socks p).peer).bufavail -
      (getSlot st.socks (getSlot st.socks p).peer).bufwritten)))

/-- Entry `a` has the state, the descriptor, the role and the pairing of entry `b`. -/
def SameLink (a b : pfwdsock) : Prop :=
  a.active = b.active ∧ a.sock = b.sock ∧ a.listening = b.listening ∧ a.peer = b.peer

/-- A table in which slots 1 and 2 (descriptors 13 and 14) are paired and the buffer of
slot 1 holds four bytes read from descriptor 13, none of them written out yet. -/
def pending_table : List pfwdsock :=
  [{ pfwdsock.zero with sock := 3, listening := 1, active := 1 },
   { pfwdsock.zero with sock := 13, bufavail := 4, active := 1, peer := 2,
                        buff := [80, 73, 78, 71] },
   { pfwdsock.zero with sock := 14, remotesock := 13, active := 1, peer := 1, buff := [0] }]
    ++ List.replicate 61 pfwdsock.zero

/-- A pass in which descriptor 14 is writable and `write` takes all it is offered. -/
def write_all_env : IterEnv :=
  { quiet_env with
    wready := fun x => decide (x = 14)
    write := fun _ count => SysRet.ok count.toNat }

/-! ## The reserved-port walk -/

theorem advance_start_port_inRange (env : ConnEnv) (sp : Nat) (h : StartPortOk sp) :
    InRange (advance_start_port env sp) := by
  unfold StartPortOk at h
  unfold InRange advance_start_port dec16 IPPORT_RESERVED at *
  rcases h with h | h
  · simp only [h, if_true]; omega
  · have h0 : sp ≠ 0 := by omega
    simp only [h0, if_false]
    split <;> omega

theorem advance_start_port_eq_next (env : ConnEnv) (sp : Nat) (h : sp ≠ 0) :
    advance_start_port env sp = next_port sp := by
  simp [advance_start_port, next_port, h]

theorem port_at_zero (s : Nat) : port_at s 0 = s := by
  simp [port_at]

theorem port_at_inRange (s i : Nat) (hs : InRange s) (hi : i < 512) : InRange (port_at s i) := by
  unfold InRange port_at IPPORT_RESERVED at *
  split <;> omega

theorem next_port_port_at (s i : Nat) (hs : InRange s) (hi : i < 512) :
    next_port (port_at s i) = port_at s (i + 1) := by
  unfold InRange at hs
  unfold next_port port_at dec16 IPPORT_RESERVED at *
  split <;> split <;> split <;> omega

theorem port_at_ne_start (s i : Nat) (hs : InRange s) (h0 : 0 < i) (hi : i < 512) :
    port_at s i ≠ s := by
  unfold InRange at hs
  unfold port_at IPPORT_RESERVED at *
  split <;> omega

theorem port_at_full (s : Nat) (hs : InRange s) : port_at s 512 = s := by
  unfold InRange at hs
  unfold port_at IPPORT_RESERVED at *
  split <;> omega

theorem port_at_inj (s i j : Nat) (hs : InRange s) (hi : i < 512) (hj : j < 512)
    (h : port_at s i = port_at s j) : i = j := by
  unfold InRange at hs
  unfold port_at IPPORT_RESERVED at *
  split at h <;> split at h <;> omega

/-- While the ports are refused softly and the walk has not come round, the loop moves on
to the next port of the walk. -/
theorem bind_loop_walk (env : ConnEnv) (sock : Int) (s : Nat) (hs : InRange s) :
    ∀ (d i fuel : Nat), i + d ≤ 511 →
      (∀ j, i ≤ j → j < i + d → BindSoft env (port_at s j)) →
      bind_loop env sock s (fuel + d) (port_at s i) =
        (bind_loop env sock s fuel (port_at s (i + d))).map
          (fun r => (r.1, (List.range' i d).map (fun j => NetCall.bind sock (port_at s j)) ++ r.2)) := by
  intro d
  induction d with
  | zero =>
    intro i fuel _ _
    simp
  | succ d ih =>
    intro i fuel hid hsoft
    obtain ⟨e, he, hsoft_e⟩ := hsoft i (le_refl i) (by omega)
    have hstep : bind_loop env sock s (fuel + d + 1) (port_at s i) =
        (bind_loop env sock s (fuel + d) (port_at s (i + 1))).map
          (fun r => (r.1, NetCall.bind sock (port_at s i) :: r.2)) := by
      have hne : port_at s (i + 1) ≠ s := port_at_ne_start s (i + 1) hs (by omega) (by omega)
      have hnot : ¬ (e ≠ EADDRINUSE ∧ e ≠ EADDRNOTAVAIL) := by
        rcases hsoft_e with h | h <;> simp [h]
      simp only [bind_loop, he, hnot, if_false, next_port_port_at s i hs (by omega), hne]
    have hrec := ih (i + 1) fuel (by omega) (fun j h1 h2 => hsoft j (by omega) (by omega))
    rw [show fuel + (d + 1) = fuel + d + 1 from rfl, hstep, hrec, Option.map_map]
    have hidx : i + 1 + d = i + (d + 1) := by omega
    rw [hidx]
    congr 1

/-- Ports `0 .. k-1` of the walk are refused softly, then the loop meets port `k`. -/
theorem bind_loop_upto (env : ConnEnv) (sock : Int) (s : Nat) (hs : InRange s)
    (k fuel : Nat) (hk : k ≤ 511)
    (hsoft : ∀ j, j < k → BindSoft env (port_at s j)) :
    bind_loop env sock s (fuel + k) s =
      (bind_loop env sock s fuel (port_at s k)).map
        (fun r => (r.1, (List.range k).map (fun j => NetCall.bind sock (port_at s j)) ++ r.2)) := by
  have h := bind_loop_walk env sock s hs k 0 fuel (by omega)
    (fun j _ h2 => hsoft j (by omega))
  rw [port_at_zero, Nat.zero_add] at h
  rw [h, List.range_eq_range']

theorem walk_nodup (s : Nat) (hs : InRange s) (n : Nat) (hn : n ≤ 512) :
    ((List.range n).map (port_at s)).Nodup := by
  apply List.Nodup.map_on _ (List.nodup_range n)
  intro x hx y hy hxy
  rw [List.mem_range] at hx hy
  exact port_at_inj s x y hs (by omega) (by omega) hxy

theorem walk_covers (s p : Nat) (hs : InRange s) (hp : InRange p) :
    p ∈ (List.range 512).map (port_at s) := by
  rw [List.mem_map]
  unfold InRange IPPORT_RESERVED at hs hp
  by_cases hle : p ≤ s
  · refine ⟨s - p, by rw [List.mem_range]; omega, ?_⟩
    unfold port_at IPPORT_RESERVED
    split <;> omega
  · refine ⟨s + 512 - p, by rw [List.mem_range]; omega, ?_⟩
    unfold port_at IPPORT_RESERVED
    split <;> omega

theorem bind_loop_exhausted (env : ConnEnv) (sock : Int) (s : Nat) (hs : InRange s)
    (fuel : Nat) (hfuel : 512 ≤ fuel) (hsoft : ∀ p, InRange p → BindSoft env p) :
    bind_loop env sock s fuel s =
      some (BindEnd.ret PBS_NET_RC_RETRY,
        (List.range 512).map (fun j => NetCall.bind sock (port_at s j)) ++ [NetCall.close sock]) := by
  obtain ⟨f, hf⟩ : ∃ f, fuel = f + 1 + 511 := ⟨fuel - 512, by omega⟩
  subst hf
  rw [bind_loop_upto env sock s hs 511 (f + 1) (le_refl _)
    (fun j hj => hsoft _ (port_at_inRange s j hs (by omega)))]
  obtain ⟨e, he, hor⟩ := hsoft _ (port_at_inRange s 511 hs (by omega))
  have hnot : ¬ (e ≠ EADDRINUSE ∧ e ≠ EADDRNOTAVAIL) := by
    rcases hor with h | h <;> simp [h]
  have hnext : next_port (port_at s 511) = s := by
    rw [next_port_port_at s 511 hs (by omega)]
    exact port_at_full s hs
  simp only [bind_loop, he, hnot, if_false, hnext, if_true, Option.map_some']
  rw [List.range_succ (n := 511)]
  simp

theorem bind_loop_hard (env : ConnEnv) (sock : Int) (s : Nat) (hs : InRange s)
    (k fuel e : Nat) (hk : k < 512) (hfuel : k < fuel)
    (hsoft : ∀ j, j < k → BindSoft env (port_at s j))
    (hbind : env.bind (port_at s k) = SysRet.error e)
    (hhard : e ≠ EADDRINUSE ∧ e ≠ EADDRNOTAVAIL) :
    bind_loop env sock s fuel s =
      some (BindEnd.ret PBS_NET_RC_FATAL,
        (List.range (k + 1)).map (fun j => NetCall.bind sock (port_at s j)) ++
          [NetCall.close sock]) := by
  obtain ⟨f, hf⟩ : ∃ f, fuel = f + 1 + k := ⟨fuel - 1 - k, by omega⟩
  subst hf
  rw [bind_loop_upto env sock s hs k (f + 1) (by omega) hsoft]
  simp only [bind_loop, hbind, hhard, if_true, Option.map_some', ne_eq, not_false_eq_true,
    and_self]
  rw [List.range_succ (n := k)]
  simp

theorem bind_loop_bound (env : ConnEnv) (sock : Int) (s : Nat) (hs : InRange s)
    (k fuel : Nat) (hk : k < 512) (hfuel : k < fuel)
    (hsoft : ∀ j, j < k → BindSoft env (port_at s j))
    (hbind : env.bind (port_at s k) = SysRet.ok ()) :
    bind_loop env sock s fuel s =
      some (BindEnd.bound (port_at s k),
        (List.range (k + 1)).map (fun j => NetCall.bind sock (port_at s j))) := by
  obtain ⟨f, hf⟩ : ∃ f, fuel = f + 1 + k := ⟨fuel - 1 - k, by omega⟩
  subst hf
  rw [bind_loop_upto env sock s hs k (f + 1) (by omega) hsoft]
  simp only [bind_loop, hbind, Option.map_some']
  rw [List.range_succ (n := k)]
  simp

theorem bind_loop_bound_calls (env : ConnEnv) (sock : Int) (s : Nat) :
    ∀ (fuel t p : Nat) (binds : List NetCall),
      bind_loop env sock s fuel t = some (BindEnd.bound p, binds) →
      ∀ c ∈ binds, ∃ q, c = NetCall.bind sock q := by
  intro fuel
  induction fuel with
  | zero => intro t p binds h; simp [bind_loop] at h
  | succ fuel ih =>
    intro t p binds h
    unfold bind_loop at h
    cases hb : env.bind t with
    | ok u =>
      simp only [hb, Option.some.injEq, Prod.mk.injEq] at h
      intro c hc
      rw [← h.2] at hc
      simp at hc
      exact ⟨t, hc⟩
    | error e =>
      simp only [hb] at h
      split at h
      · simp at h
      · split at h
        · simp at h
        · cases hr : bind_loop env sock s fuel (next_port t) with
          | none => simp [hr] at h
          | some r =>
            obtain ⟨r1, r2⟩ := r
            simp only [hr, Option.map_some', Option.some.injEq, Prod.mk.injEq] at h
            obtain ⟨h1, h2⟩ := h
            subst h1
            intro c hc
            rw [← h2] at hc
            rcases List.mem_cons.mp hc with hc | hc
            · exact ⟨t, hc⟩
            · exact ih _ _ _ hr c hc

theorem bind_loop_head (env : ConnEnv) (sock : Int) (s fuel t : Nat) (e : BindEnd)
    (binds : List NetCall) (h : bind_loop env sock s fuel t = some (e, binds)) :
    ∃ rest, binds = NetCall.bind sock t :: rest := by
  cases fuel with
  | zero => simp [bind_loop] at h
  | succ fuel =>
    unfold bind_loop at h
    cases hb : env.bind t with
    | ok u =>
      simp only [hb, Option.some.injEq, Prod.mk.injEq] at h
      exact ⟨[], h.2.symm⟩
    | error en =>
      simp only [hb] at h
      split at h
      · simp only [Option.some.injEq, Prod.mk.injEq] at h
        exact ⟨_, h.2.symm⟩
      · split at h
        · simp only [Option.some.injEq, Prod.mk.injEq] at h
          exact ⟨_, h.2.symm⟩
        · cases hr : bind_loop env sock s fuel (next_port t) with
          | none => simp [hr] at h
          | some r =>
            simp only [hr, Option.map_some', Option.some.injEq, Prod.mk.injEq] at h
            exact ⟨_, h.2.symm⟩

theorem next_port_inRange (t : Nat) (h : InRange t) : InRange (next_port t) := by
  unfold InRange next_port dec16 IPPORT_RESERVED at *
  split <;> omega

theorem bind_loop_bound_inRange (env : ConnEnv) (sock : Int) (s : Nat) :
    ∀ (fuel t p : Nat) (binds : List NetCall), InRange t →
      bind_loop env sock s fuel t = some (BindEnd.bound p, binds) → InRange p := by
  intro fuel
  induction fuel with
  | zero => intro t p binds _ h; simp [bind_loop] at h
  | succ fuel ih =>
    intro t p binds ht h
    unfold bind_loop at h
    cases hb : env.bind t with
    | ok u =>
      simp only [hb, Option.some.injEq, Prod.mk.injEq, BindEnd.bound.injEq] at h
      rw [← h.1]; exact ht
    | error e =>
      simp only [hb] at h
      split at h
      · simp at h
      · split at h
        · simp at h
        · cases hr : bind_loop env sock s fuel (next_port t) with
          | none => simp [hr] at h
          | some r =>
            obtain ⟨r1, r2⟩ := r
            simp only [hr, Option.map_some', Option.some.injEq, Prod.mk.injEq] at h
            obtain ⟨h1, _⟩ := h
            subst h1
            exact ih _ _ _ (next_port_inRange t ht) hr

/-! ## The connector, phase by phase -/

theorem poll_loop_skip (env : ConnEnv) :
    ∀ (d i fuel : Nat), (∀ j, i ≤ j → j < i + d →
        ∃ pe, env.poll j = SysRet.error pe ∧ (pe = EAGAIN ∨ pe = EINTR)) →
      poll_loop env (fuel + d) i = poll_loop env fuel (i + d) := by
  intro d
  induction d with
  | zero => intro i fuel _; rfl
  | succ d ih =>
    intro i fuel h
    obtain ⟨pe, hpe, hor⟩ := h i (le_refl i) (by omega)
    have hnot : ¬ (pe ≠ EAGAIN ∧ pe ≠ EINTR) := by
      rcases hor with h | h <;> simp [h]
    have hstep : poll_loop env (fuel + d + 1) i = poll_loop env (fuel + d) (i + 1) := by
      simp only [poll_loop, hpe, hnot, if_false]
    rw [show fuel + (d + 1) = fuel + d + 1 from rfl, hstep,
      ih (i + 1) fuel (fun j h1 h2 => h j (by omega) (by omega))]
    congr 1
    omega

theorem poll_loop_answer (env : ConnEnv) (fuel k rc : Nat) (hk : k < fuel)
    (hretry : PollRetries env k) (hans : env.poll k = SysRet.ok rc) :
    poll_loop env fuel 0 = some ((rc : Int), k + 1) := by
  obtain ⟨f, hf⟩ : ∃ f, fuel = f + 1 + k := ⟨fuel - 1 - k, by omega⟩
  subst hf
  rw [poll_loop_skip env k 0 (f + 1) (fun j _ h2 => hretry j (by omega))]
  simp [poll_loop, hans]

theorem connect_phase_transient (fuel : Nat) (env : ConnEnv) (sock : Int) (flags : Nat)
    (hnb : env.setfl_nonblock_ok = true) (ht : ConnectTransient fuel env) :
    ∃ calls, connect_phase fuel env sock flags = some (PBS_NET_RC_RETRY, calls ++ [NetCall.close sock])
      ∧ NetCall.close sock ∉ calls := by
  rcases ht with ⟨e, hc, he⟩ | ⟨e, k, hc, he, hk, hretry, hans⟩
  · refine ⟨[NetCall.fcntl_getfl sock, NetCall.fcntl_setfl sock true, NetCall.connect sock], ?_, by simp⟩
    simp [connect_phase, hnb, hc, he]
  · refine ⟨[NetCall.fcntl_getfl sock, NetCall.fcntl_setfl sock true, NetCall.connect sock] ++
      List.replicate (k + 1) (NetCall.poll sock), ?_, ?_⟩
    · have hne : ¬ (e = EINTR ∨ e = EADDRINUSE ∨ e = ETIMEDOUT ∨ e = ECONNREFUSED) := by
        rcases he with h | h <;> subst h <;> decide
      have hp := poll_loop_answer env fuel k 0 hk hretry hans
      simp [connect_phase, hnb, hc, hne, he, hp]
    · simp

/-- Up to `connect` the function has issued no `close`, and what follows is decided by
`connect_phase`. -/
theorem reaches_connect_result (fuel : Nat) (env : ConnEnv) (sp flags : Nat)
    (la : Option Unit) (h : ReachesConnect fuel env sp flags la) :
    ∃ pre sp2, (∀ fd, NetCall.close fd ∉ pre) ∧
      (∀ fd, NetCall.CS_server_auth fd ∉ pre) ∧ (∀ fd, NetCall.CS_client_auth fd ∉ pre) ∧
      ∀ rc calls, connect_phase fuel env env.socket flags = some (rc, calls) →
        client_to_svr_extend fuel env sp flags la =
          some { ret := rc, start_port := sp2, calls := pre ++ calls } := by
  obtain ⟨hsock, _, hres⟩ := h
  have hs : ¬ env.socket < 0 := by omega
  by_cases hf : flags &&& B_RESERVED ≠ 0
  · obtain ⟨hla, hpub, p, binds, hb⟩ := hres hf
    have hbinds := bind_loop_bound_calls env env.socket _ _ _ _ _ hb
    refine ⟨([NetCall.socket env.socket] ++ (if sp = 0 then [NetCall.getpid] else [])
        ++ (if la.isSome then [NetCall.inet_addr]
            else if env.pbs_public_host_name then [NetCall.get_hostaddr] else [])) ++ binds,
      p, ?_, ?_, ?_, ?_⟩
    · intro fd hmem
      simp only [List.mem_append] at hmem
      rcases hmem with (hmem | hmem) | hmem
      · rcases hmem with hmem | hmem
        · simp at hmem
        · split at hmem <;> simp at hmem
      · split at hmem
        · simp at hmem
        · split at hmem <;> simp at hmem
      · obtain ⟨q, hq⟩ := hbinds _ hmem
        cases hq
    · intro fd hmem
      simp only [List.mem_append] at hmem
      rcases hmem with (hmem | hmem) | hmem
      · rcases hmem with hmem | hmem
        · simp at hmem
        · split at hmem <;> simp at hmem
      · split at hmem
        · simp at hmem
        · split at hmem <;> simp at hmem
      · obtain ⟨q, hq⟩ := hbinds _ hmem
        cases hq
    · intro fd hmem
      simp only [List.mem_append] at hmem
      rcases hmem with (hmem | hmem) | hmem
      · rcases hmem with hmem | hmem
        · simp at hmem
        · split at hmem <;> simp at hmem
      · split at hmem
        · simp at hmem
        · split at hmem <;> simp at hmem
      · obtain ⟨q, hq⟩ := hbinds _ hmem
        cases hq
    · intro rc calls hc
      unfold client_to_svr_extend
      simp only [hf, hs, hla, hpub, hb, hc, if_true, if_false, ne_eq, not_false_eq_true]
  · refine ⟨[NetCall.socket env.socket], sp, by simp, by simp, by simp, ?_⟩
    intro rc calls hc
    unfold client_to_svr_extend
    simp only [hf, hs, hc, if_false]
    rfl

theorem count_close_append_last (pre calls : List NetCall) (sock : Int)
    (h1 : ∀ fd, NetCall.close fd ∉ pre) (h2 : NetCall.close sock ∉ calls) :
    (pre ++ (calls ++ [NetCall.close sock])).count (NetCall.close sock) = 1 ∧
    (pre ++ (calls ++ [NetCall.close sock])).getLast? = some (NetCall.close sock) := by
  constructor
  · rw [List.count_append, List.count_append, List.count_eq_zero_of_not_mem (h1 sock),
      List.count_eq_zero_of_not_mem h2]
    simp
  · rw [← List.append_assoc, List.getLast?_concat]

theorem engage_authentication_ok (env : ConnEnv) (sd : Int) (flags : Nat) (hsd : 0 ≤ sd)
    (h : RecognisedSuccess flags (handshake_code env flags)) :
    engage_authentication env sd flags = (0, [handshake_call sd flags]) := by
  have hs : ¬ sd < 0 := by omega
  unfold RecognisedSuccess ClaimedSuccess handshake_code at h
  unfold engage_authentication handshake_call
  by_cases hf : flags &&& B_SVR ≠ 0
  · simp only [hf, if_true, ne_eq, not_true_eq_false, not_false_eq_true, false_and, or_false,
      true_and] at h
    have h2 : env.CS_server_auth = CsCode.CS_SUCCESS ∨
        env.CS_server_auth = CsCode.CS_AUTH_CHECK_PORT := by
      rcases h with h | h
      · exact Or.inl h
      · exact Or.inr h
    simp only [hs, hf, h2, if_true, if_false, ne_eq, not_false_eq_true]
  · have hf0 : flags &&& B_SVR = 0 := by
      by_contra hne; exact hf hne
    simp only [hf, if_false, hf0, true_and, ne_eq, not_true_eq_false, false_and, or_false] at h
    simp only [hs, hf, h, if_true, if_false]

theorem engage_authentication_fail (env : ConnEnv) (sd : Int) (flags : Nat) (hsd : 0 ≤ sd)
    (h : ¬ RecognisedSuccess flags (handshake_code env flags)) :
    ∃ rest, engage_authentication env sd flags = (-1, handshake_call sd flags :: rest) ∧
      (∀ fd, NetCall.close fd ∉ rest) ∧
      (∀ fd, NetCall.CS_server_auth fd ∉ rest) ∧ (∀ fd, NetCall.CS_client_auth fd ∉ rest) := by
  have hs : ¬ sd < 0 := by omega
  unfold RecognisedSuccess ClaimedSuccess handshake_code at h
  refine ⟨(auth_failed env sd).2, ?_, ?_, ?_, ?_⟩
  · unfold engage_authentication handshake_call
    by_cases hf : flags &&& B_SVR ≠ 0
    · simp only [hf, if_true, ne_eq, not_true_eq_false, not_false_eq_true, false_and, or_false,
        true_and] at h
      have h2 : ¬ (env.CS_server_auth = CsCode.CS_SUCCESS ∨
          env.CS_server_auth = CsCode.CS_AUTH_CHECK_PORT) := by
        intro hc
        rcases hc with hc | hc
        · exact h (Or.inl hc)
        · exact h (Or.inr hc)
      simp only [hs, hf, h2, if_true, if_false, ne_eq, not_false_eq_true]
      rfl
    · have hf0 : flags &&& B_SVR = 0 := by
        by_contra hne; exact hf hne
      simp only [hf, if_false, hf0, true_and, ne_eq, not_true_eq_false, false_and,
        or_false] at h
      simp only [hs, hf, h, if_false]
      rfl
  · intro fd hm
    unfold auth_failed at hm
    simp only [List.mem_append, List.mem_cons] at hm
    rcases hm with (hm | hm | hm) | hm
    · cases hm
    · cases hm
    · simp at hm
    · split at hm <;> simp at hm
  · intro fd hm
    unfold auth_failed at hm
    simp only [List.mem_append, List.mem_cons] at hm
    rcases hm with (hm | hm | hm) | hm
    · cases hm
    · cases hm
    · simp at hm
    · split at hm <;> simp at hm
  · intro fd hm
    unfold auth_failed at hm
    simp only [List.mem_append, List.mem_cons] at hm
    rcases hm with (hm | hm | hm) | hm
    · cases hm
    · cases hm
    · simp at hm
    · split at hm <;> simp at hm

/-- Once the connection is established, `connect_phase` ends in `finish_connect`, and
what it issued before holds neither a `close` nor a handshake. -/
theorem connect_phase_established (fuel : Nat) (env : ConnEnv) (sock : Int) (flags : Nat)
    (hnb : env.setfl_nonblock_ok = true) (he : ConnectEstablished fuel env) :
    ∃ pre, (∀ fd, NetCall.close fd ∉ pre) ∧
      (∀ fd, NetCall.CS_server_auth fd ∉ pre) ∧ (∀ fd, NetCall.CS_client_auth fd ∉ pre) ∧
      connect_phase fuel env sock flags =
        some ((finish_connect env sock flags).1, pre ++ (finish_connect env sock flags).2) := by
  rcases he with hc | ⟨e, k, hc, he, hk, hretry, hans, hso⟩
  · refine ⟨[NetCall.fcntl_getfl sock, NetCall.fcntl_setfl sock true, NetCall.connect sock],
      by simp, by simp, by simp, ?_⟩
    simp [connect_phase, hnb, hc]
  · refine ⟨[NetCall.fcntl_getfl sock, NetCall.fcntl_setfl sock true, NetCall.connect sock] ++
      List.replicate (k + 1) (NetCall.poll sock) ++ [NetCall.getsockopt_so_error sock],
      by simp, by simp, by simp, ?_⟩
    have hne : ¬ (e = EINTR ∨ e = EADDRINUSE ∨ e = ETIMEDOUT ∨ e = ECONNREFUSED) := by
      rcases he with h | h <;> subst h <;> decide
    have hp := poll_loop_answer env fuel k 1 hk hretry hans
    simp [connect_phase, hnb, hc, hne, he, hp, hso]

theorem finish_connect_ok (env : ConnEnv) (sock : Int) (flags : Nat) (hsd : 0 ≤ sock)
    (hrestore : env.setfl_restore_ok = true)
    (h : RecognisedSuccess flags (handshake_code env flags)) :
    finish_connect env sock flags =
      (sock, [NetCall.fcntl_setfl sock false, handshake_call sock flags]) := by
  unfold finish_connect
  simp [hrestore, engage_authentication_ok env sock flags hsd h]

theorem finish_connect_fail (env : ConnEnv) (sock : Int) (flags : Nat) (hsd : 0 ≤ sock)
    (hrestore : env.setfl_restore_ok = true)
    (h : ¬ RecognisedSuccess flags (handshake_code env flags)) :
    ∃ rest, finish_connect env sock flags =
        (PBS_NET_RC_FATAL,
          (NetCall.fcntl_setfl sock false :: handshake_call sock flags :: rest) ++
            [NetCall.close sock]) ∧
      (∀ fd, NetCall.close fd ∉ rest) ∧
      (∀ fd, NetCall.CS_server_auth fd ∉ rest) ∧ (∀ fd, NetCall.CS_client_auth fd ∉ rest) := by
  obtain ⟨rest, he, h1, h2, h3⟩ := engage_authentication_fail env sock flags hsd h
  refine ⟨rest, ?_, h1, h2, h3⟩
  unfold finish_connect
  simp [hrestore, he]

theorem handshake_call_not_close (sd : Int) (flags : Nat) (fd : Int) :
    NetCall.close fd ≠ handshake_call sd flags := by
  unfold handshake_call
  split <;> simp

theorem handshake_call_server (sd : Int) (flags : Nat) (h : flags &&& B_SVR ≠ 0) :
    handshake_call sd flags = NetCall.CS_server_auth sd := by
  simp [handshake_call, h]

theorem handshake_call_client (sd : Int) (flags : Nat) (h : flags &&& B_SVR = 0) :
    handshake_call sd flags = NetCall.CS_client_auth sd := by
  simp [handshake_call, h]

theorem reserved_unfold (fuel : Nat) (env : ConnEnv) (sp flags : Nat) (la : Option Unit)
    (h : ReachesBind env flags la) :
    client_to_svr_extend fuel env sp flags la =
      match bind_loop env env.socket (advance_start_port env sp) fuel
          (advance_start_port env sp) with
      | none => none
      | some (BindEnd.ret rc, binds) =>
        some { ret := rc, start_port := advance_start_port env sp,
               calls := reserved_pre env sp la ++ binds }
      | some (BindEnd.bound p, binds) =>
        match connect_phase fuel env env.socket flags with
        | none => none
        | some (rc, calls) =>
          some { ret := rc, start_port := p, calls := reserved_pre env sp la ++ binds ++ calls } := by
  obtain ⟨hf, hsock, hla, hpub⟩ := h
  have hs : ¬ env.socket < 0 := by omega
  unfold client_to_svr_extend reserved_pre
  simp only [hf, hs, hla, hpub, if_true, if_false, ne_eq, not_false_eq_true]

theorem tried_ports_reserved_pre (env : ConnEnv) (sp : Nat) (la : Option Unit) :
    tried_ports (reserved_pre env sp la) = [] := by
  unfold tried_ports reserved_pre
  split <;> split <;> (try split) <;> rfl

theorem close_not_mem_reserved_pre (env : ConnEnv) (sp : Nat) (la : Option Unit) (fd : Int) :
    NetCall.close fd ∉ reserved_pre env sp la := by
  unfold reserved_pre
  split <;> split <;> (try split) <;> simp

theorem tried_ports_append (a b : List NetCall) :
    tried_ports (a ++ b) = tried_ports a ++ tried_ports b := by
  unfold tried_ports
  exact List.filterMap_append _ _ _

theorem tried_ports_map_bind (sock : Int) (f : Nat → Nat) (l : List Nat) :
    tried_ports (l.map (fun j => NetCall.bind sock (f j))) = l.map f := by
  induction l with
  | nil => rfl
  | cons a l ih =>
    simp only [List.map_cons]
    rw [← ih]
    rfl

theorem close_not_mem_map_bind (sock : Int) (f : Nat → Nat) (l : List Nat) (fd : Int) :
    NetCall.close fd ∉ l.map (fun j => NetCall.bind sock (f j)) := by
  simp

theorem search_start_eq (fuel : Nat) (env : ConnEnv) (sp flags : Nat) (la : Option Unit)
    (r : ConnResult) (h : ReachesBind env flags la)
    (hr : client_to_svr_extend fuel env sp flags la = some r) :
    search_start r = some (advance_start_port env sp) := by
  rw [reserved_unfold fuel env sp flags la h] at hr
  cases hb : bind_loop env env.socket (advance_start_port env sp) fuel
      (advance_start_port env sp) with
  | none => simp [hb] at hr
  | some res =>
    obtain ⟨e, binds⟩ := res
    obtain ⟨rest, hrest⟩ := bind_loop_head _ _ _ _ _ _ _ hb
    subst hrest
    cases e with
    | ret rc =>
      simp only [hb, Option.some.injEq] at hr
      subst hr
      show (tried_ports (reserved_pre env sp la ++ _)).head? = _
      rw [tried_ports_append, tried_ports_reserved_pre]
      rfl
    | bound p =>
      simp only [hb] at hr
      cases hc : connect_phase fuel env env.socket flags with
      | none => simp [hc] at hr
      | some res2 =>
        obtain ⟨rc, calls⟩ := res2
        simp only [hc, Option.some.injEq] at hr
        subst hr
        show (tried_ports (reserved_pre env sp la ++ _ ++ calls)).head? = _
        rw [tried_ports_append, tried_ports_append, tried_ports_reserved_pre]
        rfl

theorem start_port_after_bind (fuel : Nat) (env : ConnEnv) (sp flags : Nat) (la : Option Unit)
    (r : ConnResult) (k : Nat) (h : ReachesBind env flags la) (hsp : StartPortOk sp)
    (hk : k < 512) (hfuel : k < fuel)
    (hsoft : ∀ j, j < k → BindSoft env (port_at (advance_start_port env sp) j))
    (hbind : env.bind (port_at (advance_start_port env sp) k) = SysRet.ok ())
    (hr : client_to_svr_extend fuel env sp flags la = some r) :
    r.start_port = port_at (advance_start_port env sp) k := by
  have hs := advance_start_port_inRange env sp hsp
  rw [reserved_unfold fuel env sp flags la h,
    bind_loop_bound env env.socket _ hs k fuel hk hfuel hsoft hbind] at hr
  simp only at hr
  cases hc : connect_phase fuel env env.socket flags with
  | none => simp [hc] at hr
  | some res2 =>
    obtain ⟨rc, calls⟩ := res2
    simp only [hc, Option.some.injEq] at hr
    subst hr
    rfl

/-- The static `start_port` stays `0` or a port of the range over every call. -/
theorem start_port_invariant (fuel : Nat) (env : ConnEnv) (sp flags : Nat) (la : Option Unit)
    (r : ConnResult) (hsp : StartPortOk sp)
    (hr : client_to_svr_extend fuel env sp flags la = some r) : StartPortOk r.start_port := by
  have hs := advance_start_port_inRange env sp hsp
  have hin : ∀ p, InRange p → StartPortOk p := fun p hp => Or.inr hp
  unfold client_to_svr_extend at hr
  dsimp only at hr
  split at hr
  · split at hr
    · cases hr; exact hsp
    · split at hr
      · cases hr; exact hin _ hs
      · split at hr
        · cases hr; exact hin _ hs
        · split at hr
          · cases hr
          · cases hr; exact hin _ hs
          · rename_i p binds hb
            split at hr
            · cases hr
            · cases hr
              exact hin _ (bind_loop_bound_inRange env _ _ _ _ _ _ hs hb)
  · split at hr
    · cases hr; exact hsp
    · split at hr
      · cases hr
      · cases hr; exact hsp

theorem slow_connect_reaches : ReachesConnect 600 slow_connect_conn 0 B_RESERVED none :=
  ⟨by decide, rfl, fun _ => ⟨by decide, by decide, 615, [NetCall.bind 5 615], by decide⟩⟩

theorem slow_connect_transient : ConnectTransient 600 slow_connect_conn := by
  refine Or.inr ⟨EINPROGRESS, 1, rfl, Or.inr rfl, by decide, ?_, rfl⟩
  intro i hi
  have hi0 : i = 0 := by omega
  subst hi0
  exact ⟨EINTR, rfl, Or.inr rfl⟩

/-! ## The buffer counters stay within their bounds -/

theorem getSlot_modSlot (socks : List pfwdsock) (i j : Nat) (f : pfwdsock → pfwdsock) :
    getSlot (modSlot socks i f) j =
      if j = i ∧ i < socks.length then f (getSlot socks i) else getSlot socks j := by
  simp only [getSlot, modSlot, List.getD_eq_getElem?_getD, List.getElem?_set]
  by_cases hji : j = i
  · subst hji
    by_cases hlt : j < socks.length
    · simp [hlt]
    · have hnone : socks[j]? = none := by simp; omega
      simp [hlt, hnone]
  · have : ¬ i = j := fun h => hji h.symm
    simp [hji, this]

theorem getSlot_mem_or_zero (socks : List pfwdsock) (n : Nat) :
    getSlot socks n ∈ socks ∨ getSlot socks n = pfwdsock.zero := by
  unfold getSlot
  by_cases h : n < socks.length
  · left
    rw [List.getD_eq_getElem socks _ h]
    exact List.getElem_mem h
  · right
    exact List.getD_eq_default socks _ (by omega)

theorem Bounds_zero (P : PfParams) : Bounds P pfwdsock.zero := by
  simp [Bounds, pfwdsock.zero]

theorem AllBounds.get {P : PfParams} {socks : List pfwdsock} (h : AllBounds P socks) (n : Nat) :
    Bounds P (getSlot socks n) := by
  rcases getSlot_mem_or_zero socks n with hm | hz
  · exact h _ hm
  · rw [hz]; exact Bounds_zero P

theorem AllBounds.mod {P : PfParams} {socks : List pfwdsock} {n : Nat} {f : pfwdsock → pfwdsock}
    (hf : Bounds P (f (getSlot socks n))) (h : AllBounds P socks) :
    AllBounds P (modSlot socks n f) := by
  intro s hs
  rcases List.mem_or_eq_of_mem_set hs with hm | he
  · exact h s hm
  · rw [he]; exact hf

theorem AllBounds.mod_frame {P : PfParams} {socks : List pfwdsock} {n : Nat}
    {f : pfwdsock → pfwdsock}
    (hf : ∀ s, (f s).bufavail = s.bufavail ∧ (f s).bufwritten = s.bufwritten)
    (h : AllBounds P socks) : AllBounds P (modSlot socks n f) := by
  apply AllBounds.mod _ h
  have hb := h.get n
  unfold Bounds at *
  rw [(hf _).1, (hf _).2]
  exact hb

theorem getSlot_modSlot_est (Q : pfwdsock → Prop) (socks : List pfwdsock) (i : Nat)
    (f : pfwdsock → pfwdsock) (hz : Q pfwdsock.zero) (hf : ∀ s, Q (f s)) :
    Q (getSlot (modSlot socks i f) i) := by
  rw [getSlot_modSlot]
  split
  · exact hf _
  · rename_i hc
    have : getSlot socks i = pfwdsock.zero := by
      unfold getSlot
      exact List.getD_eq_default _ _ (by simp at hc; omega)
    rw [this]; exact hz

theorem getSlot_modSlot_pres (Q : pfwdsock → Prop) (socks : List pfwdsock) (i j : Nat)
    (f : pfwdsock → pfwdsock) (hj : Q (getSlot socks j)) (hf : ∀ s, Q s → Q (f s)) :
    Q (getSlot (modSlot socks i f) j) := by
  rw [getSlot_modSlot]
  split
  · rename_i hc
    have hq := hf _ hj
    rw [hc.1] at hq
    exact hq
  · exact hj

/-- Lines 231-232 keep the bounds: both counters of both slots end at zero. -/
theorem AllBounds.reset_block {P : PfParams} {socks : List pfwdsock} (p n : Nat)
    (h : AllBounds P socks) :
    AllBounds P
      (modSlot (modSlot (modSlot (modSlot socks p (fun s => { s with bufwritten := 0 }))
        n (fun s => { s with bufwritten := 0 }))
        p (fun s => { s with bufavail := 0 }))
        n (fun s => { s with bufavail := 0 })) := by
  have h1 : AllBounds P (modSlot socks p (fun s => { s with bufwritten := 0 })) := by
    apply AllBounds.mod _ h
    have hb := h.get p
    unfold Bounds at *
    simp only
    omega
  have e1 : (getSlot (modSlot socks p (fun s => { s with bufwritten := 0 })) p).bufwritten = 0 :=
    getSlot_modSlot_est (fun s => s.bufwritten = 0) _ _ _ rfl (fun _ => rfl)
  have h2 : AllBounds P (modSlot (modSlot socks p (fun s => { s with bufwritten := 0 }))
      n (fun s => { s with bufwritten := 0 })) := by
    apply AllBounds.mod _ h1
    have hb := h1.get n
    unfold Bounds at *
    simp only
    omega
  have e2p : (getSlot (modSlot (modSlot socks p (fun s => { s with bufwritten := 0 }))
      n (fun s => { s with bufwritten := 0 })) p).bufwritten = 0 :=
    getSlot_modSlot_pres (fun s => s.bufwritten = 0) _ _ _ _ e1 (fun _ _ => rfl)
  have e2n : (getSlot (modSlot (modSlot socks p (fun s => { s with bufwritten := 0 }))
      n (fun s => { s with bufwritten := 0 })) n).bufwritten = 0 :=
    getSlot_modSlot_est (fun s => s.bufwritten = 0) _ _ _ rfl (fun _ => rfl)
  have h3 : AllBounds P (modSlot (modSlot (modSlot socks p (fun s => { s with bufwritten := 0 }))
      n (fun s => { s with bufwritten := 0 })) p (fun s => { s with bufavail := 0 })) := by
    apply AllBounds.mod _ h2
    have hb := h2.get p
    unfold Bounds at *
    simp only
    omega
  have e3n : (getSlot (modSlot (modSlot (modSlot socks p (fun s => { s with bufwritten := 0 }))
      n (fun s => { s with bufwritten := 0 })) p (fun s => { s with bufavail := 0 })) n).bufwritten
      = 0 :=
    getSlot_modSlot_pres (fun s => s.bufwritten = 0) _ _ _ _ e2n (fun _ hs => hs)
  apply AllBounds.mod _ h3
  have hb := h3.get n
  unfold Bounds at *
  simp only
  omega

@[simp] theorem emit_socks (st : PfState) (cs : List PfCall) : (st.emit cs).socks = st.socks := rfl

theorem tear_down_bounds {P : PfParams} (n : Nat) (st : PfState) (h : AllBounds P st.socks) :
    AllBounds P (tear_down n st).socks := by
  simp only [tear_down]
  exact AllBounds.mod_frame (fun _ => ⟨rfl, rfl⟩) h

theorem accept_step_bounds {P : PfParams} (env : IterEnv) (n : Nat) (st : PfState)
    (h : AllBounds P st.socks) : AllBounds P (accept_step P env n st).2.socks := by
  unfold accept_step
  cases env.accept n with
  | error errno =>
    dsimp only
    split
    · exact h
    · dsimp only [emit_socks]
      exact AllBounds.mod_frame (fun _ => ⟨rfl, rfl⟩) h
  | ok fd =>
    dsimp only
    split
    · exact h
    · split
      · dsimp only [emit_socks]
        repeat (first | exact h | refine AllBounds.mod_frame (fun _ => ⟨rfl, rfl⟩) ?_)
      · dsimp only [emit_socks]
        refine AllBounds.mod_frame (fun _ => ⟨rfl, rfl⟩) ?_
        refine AllBounds.mod_frame (fun _ => ⟨rfl, rfl⟩) ?_
        refine AllBounds.mod_frame (fun _ => ⟨rfl, rfl⟩) ?_
        refine AllBounds.mod_frame (fun _ => ⟨rfl, rfl⟩) ?_
        refine AllBounds.reset_block _ _ ?_
        repeat (first | exact h | refine AllBounds.mod_frame (fun _ => ⟨rfl, rfl⟩) ?_)

theorem data_read_step_bounds {P : PfParams} (env : IterEnv) (n : Nat) (st : PfState)
    (hio : IoBounded env) (h : AllBounds P st.socks) :
    AllBounds P (data_read_step P env n st).2.socks := by
  unfold data_read_step
  dsimp only
  cases hr : env.read n ((P.PF_BUF_SIZE : Int) - (getSlot st.socks n).bufavail) with
  | error errno =>
    dsimp only
    split
    · exact h
    · exact tear_down_bounds n _ h
  | ok data =>
    dsimp only
    split
    · exact tear_down_bounds n _ h
    · dsimp only [emit_socks]
      apply AllBounds.mod _ h
      have hb := h.get n
      have hle := hio.1 _ _ _ hr
      unfold Bounds at *
      dsimp only
      omega

theorem read_step_bounds {P : PfParams} (env : IterEnv) (fds : FdSets) (n : Nat) (st : PfState)
    (hio : IoBounded env) (h : AllBounds P st.socks) :
    AllBounds P (read_step P env fds n st).2.socks := by
  unfold read_step
  dsimp only
  split
  · split
    · exact accept_step_bounds env n st h
    · exact data_read_step_bounds env n st hio h
  · exact h

theorem write_step_bounds {P : PfParams} (env : IterEnv) (fds : FdSets) (n : Nat) (st : PfState)
    (hio : IoBounded env) (h : AllBounds P st.socks) :
    AllBounds P (write_step env fds n st).2.socks := by
  unfold write_step
  dsimp only
  split
  · cases hw : env.write n ((getSlot st.socks (getSlot st.socks n).peer).bufavail -
        (getSlot st.socks (getSlot st.socks n).peer).bufwritten) with
    | error errno =>
      dsimp only
      split
      · exact h
      · exact tear_down_bounds n _ h
    | ok k =>
      dsimp only
      split
      · exact tear_down_bounds n _ h
      · dsimp only [emit_socks]
        apply AllBounds.mod _ h
        have hb := h.get (getSlot st.socks n).peer
        have hle := hio.2 _ _ _ hw
        unfold Bounds at *
        dsimp only
        omega
  · exact h

theorem reclaim_step_bounds {P : PfParams} (n : Nat) (st : PfState) (h : AllBounds P st.socks) :
    AllBounds P (reclaim_step n st).socks := by
  unfold reclaim_step
  dsimp only
  have hreset : AllBounds P (modSlot st.socks (getSlot st.socks n).peer
      (fun p => { p with bufwritten := 0, bufavail := 0 })) := by
    apply AllBounds.mod _ h
    unfold Bounds
    simp
  split
  · split
    · split
      · exact tear_down_bounds n _ hreset
      · exact hreset
    · split
      · exact tear_down_bounds n _ h
      · exact h
  · exact h

theorem slot_pass_bounds {P : PfParams} (env : IterEnv) (fds : FdSets) (st : PfState) (n : Nat)
    (hio : IoBounded env) (h : AllBounds P st.socks) :
    AllBounds P (slot_pass P env fds st n).socks := by
  unfold slot_pass
  dsimp only
  split
  · exact h
  · have hr := read_step_bounds env fds n st hio h
    split
    · exact hr
    · have hw := write_step_bounds env fds n _ hio hr
      split
      · exact hw
      · exact reclaim_step_bounds n _ hw

theorem foldl_invariant {α β : Type} (Q : α → Prop) (f : α → β → α) (l : List β)
    (hstep : ∀ a b, Q a → Q (f a b)) : ∀ a, Q a → Q (l.foldl f a) := by
  induction l with
  | nil => intro a ha; exact ha
  | cons b l ih => intro a ha; exact ih _ (hstep a b ha)

theorem main_iter_bounds {P : PfParams} (st : PfState) (env : IterEnv)
    (hio : IoBounded env) (h : AllBounds P st.socks) :
    AllBounds P (main_iter P st env).socks := by
  unfold main_iter
  dsimp only
  split
  · exact h
  · split
    · exact h
    · cases env.select with
      | error errno =>
        dsimp only
        split <;> exact h
      | ok u =>
        dsimp only
        split
        · exact h
        · split
          · split <;> exact h
          · refine foldl_invariant (fun (s : PfState) => AllBounds P s.socks) _ _ ?_ _ ?_
            · intro a b ha
              exact slot_pass_bounds env _ a b hio ha
            · split <;> exact h

theorem forward_loop_bounds {P : PfParams} (envs : List IterEnv) :
    ∀ st : PfState, (∀ env ∈ envs, IoBounded env) → AllBounds P st.socks →
      AllBounds P (forward_loop P envs st).socks := by
  induction envs with
  | nil => intro st _ h; exact h
  | cons env envs ih =>
    intro st hio h
    unfold forward_loop
    rw [List.foldl_cons]
    exact ih _ (fun e he => hio e (List.mem_cons_of_mem _ he))
      (main_iter_bounds st env (hio env (List.mem_cons_self _ _)) h)

theorem read_env_ioBounded (fds : List Int) (data : List Nat) : IoBounded (read_env fds data) := by
  constructor
  · intro n count d h
    simp only [read_env] at h
    split at h
    · rename_i hle
      cases h
      exact hle
    · cases h
  · intro n count k h
    simp [read_env, quiet_env] at h

theorem write_env_ioBounded (fd : Int) (k : Nat) : IoBounded (write_env fd k) := by
  constructor
  · intro n count d h
    simp [write_env, quiet_env] at h
  · intro n count j h
    simp only [write_env] at h
    split at h
    · rename_i hle
      cases h
      exact hle
    · cases h

theorem accept_env_ioBounded (fd : Nat) (dial : Int) : IoBounded (accept_env fd dial) := by
  constructor
  · intro n count d h
    simp [accept_env, quiet_env] at h
  · intro n count k h
    simp [accept_env, quiet_env] at h

theorem demo_table_bounds : AllBounds demo_params demo_table := by
  intro s hs
  simp only [demo_table, List.mem_cons, List.mem_replicate] at hs
  rcases hs with h | ⟨_, h⟩ <;> subst h <;> simp [Bounds, pfwdsock.zero]

/-! ## What `select` is asked about the control descriptor -/

/-- C1. Buffer-bounds invariant of the main loop: if every entry of the table satisfies
`0 <= bufwritten <= bufavail <= PF_BUF_SIZE` when the loop starts and every `read` and
`write` returns at most the byte count it was asked for, then after every number `k` of
trips through the loop every entry still satisfies the bounds, whatever `select`,
`accept`, `read`, `write`, `connfunc` and the other calls answer. -/
theorem port_forwarder_buffer_bounds (P : PfParams) (envs : List IterEnv) (st : PfState)
    (hio : ∀ env ∈ envs, IoBounded env) (h0 : AllBounds P st.socks) (k : Nat) :
    AllBounds P (forward_loop P (envs.take k) st).socks :=
  forward_loop_bounds (envs.take k) st (fun e he => hio e (List.mem_of_mem_take he)) h0

set_option maxRecDepth 100000 in
/-- Witness of C1: from the caller's table, a pass that accepts descriptor 13 and dials
out descriptor 14 (slots 1 and 2), a pass that reads four bytes from descriptor 14 into
the buffer of slot 2, and a pass that writes two of them on descriptor 13. Afterwards
slot 2 has `bufavail = 4` and `bufwritten = 2`, and every entry respects the bounds. -/
theorem port_forwarder_buffer_bounds_witness :
    (∀ env ∈ [accept_env 13 14, read_env [14] [80, 73, 78, 71], write_env 13 2],
      IoBounded env) ∧
    AllBounds demo_params demo_table ∧
    AllBounds demo_params
      (forward_loop demo_params
        ([accept_env 13 14, read_env [14] [80, 73, 78, 71], write_env 13 2].take 3)
        { socks := demo_table, calls := [], done := false }).socks ∧
    (forward_loop demo_params
        ([accept_env 13 14, read_env [14] [80, 73, 78, 71], write_env 13 2].take 3)
        { socks := demo_table, calls := [], done := false }).calls =
      [PfCall.select, PfCall.accept 0 3 (SysRet.ok 13), PfCall.set_nonblocking 13 1,
       PfCall.set_nodelay 13 0, PfCall.connfunc 14, PfCall.set_nonblocking 14 1,
       PfCall.set_nodelay 14 0, PfCall.select,
       PfCall.read 2 14 8192 (SysRet.ok [80, 73, 78, 71]), PfCall.select,
       PfCall.write 1 13 4 (SysRet.ok 2) [80, 73]] ∧
    getSlot (forward_loop demo_params
        ([accept_env 13 14, read_env [14] [80, 73, 78, 71], write_env 13 2].take 3)
        { socks := demo_table, calls := [], done := false }).socks 2 =
      { pfwdsock.zero with sock := 14, remotesock := 13, bufavail := 4, bufwritten := 2,
                           active := 1, peer := 1, buff := [80, 73, 78, 71] } :=
  have hio : ∀ env ∈ [accept_env 13 14, read_env [14] [80, 73, 78, 71], write_env 13 2],
      IoBounded env := by
    intro env he
    simp only [List.mem_cons, List.mem_singleton, List.not_mem_nil, or_false] at he
    rcases he with h | h | h <;> subst h
    · exact accept_env_ioBounded _ _
    · exact read_env_ioBounded _ _
    · exact write_env_ioBounded _ _
  ⟨hio, demo_table_bounds,
    port_forwarder_buffer_bounds demo_params _ _ hio demo_table_bounds 3, by decide, by decide⟩

set_option maxRecDepth 100000 in
/-- C2. From the caller's table (one listening slot, the rest zeroed), one pass in which
`accept` succeeds and the dial-out callback returns `-1` leaves slot 1 active and not
listening, with a peer index (0) whose own peer index does not point back at slot 1. -/
theorem failed_dial_out_breaks_pairing :
    (getSlot (port_forwarder demo_params quiet_env [accept_env 10 (-1)] demo_table).socks 1).active
      = 1 ∧
    (getSlot (port_forwarder demo_params quiet_env [accept_env 10 (-1)] demo_table).socks 1).listening
      = 0 ∧
    (getSlot (port_forwarder demo_params quiet_env [accept_env 10 (-1)] demo_table).socks 1).sock
      = 10 ∧
    (getSlot (port_forwarder demo_params quiet_env [accept_env 10 (-1)] demo_table).socks
      (getSlot (port_forwarder demo_params quiet_env [accept_env 10 (-1)] demo_table).socks 1).peer).peer
      ≠ 1 := by
  decide

set_option maxRecDepth 100000 in
/-- C3. In the nine-pass run the fourth pass pairs slots 1 and 2 (descriptors 13 and 14)
by a successful accept and dial-out; afterwards the bytes read from descriptor 14 are
`80 73 78 71`, the bytes written on descriptor 13 are `78 71`, and the other two bytes
went out on descriptor 15 of slot 3: what was written to slot 1 is not an initial
segment of what was read from slot 2. -/
theorem stale_peer_steals_bytes :
    (getSlot (port_forwarder demo_params quiet_env (stolen_bytes_run.take 4) demo_table).socks 1).sock
      = 13 ∧
    (getSlot (port_forwarder demo_params quiet_env (stolen_bytes_run.take 4) demo_table).socks 1).peer
      = 2 ∧
    (getSlot (port_forwarder demo_params quiet_env (stolen_bytes_run.take 4) demo_table).socks 2).sock
      = 14 ∧
    (getSlot (port_forwarder demo_params quiet_env (stolen_bytes_run.take 4) demo_table).socks 2).peer
      = 1 ∧
    received_from 14 (port_forwarder demo_params quiet_env stolen_bytes_run demo_table).calls
      = [80, 73, 78, 71] ∧
    sent_on 13 (port_forwarder demo_params quiet_env stolen_bytes_run demo_table).calls
      = [78, 71] ∧
    sent_on 15 (port_forwarder demo_params quiet_env stolen_bytes_run demo_table).calls
      = [80, 73] ∧
    ¬ (sent_on 13 (port_forwarder demo_params quiet_env stolen_bytes_run demo_table).calls <+:
        received_from 14 (port_forwarder demo_params quiet_env stolen_bytes_run demo_table).calls) := by
  decide

/-! ## Claims on the connector -/

/-- C4. Transient connect outcomes are retryable and do not leak the socket: whenever the
call gets as far as `connect` and `connect` fails with `EINTR`, `EADDRINUSE`, `ETIMEDOUT`
or `ECONNREFUSED`, or fails with `EINPROGRESS`/`EWOULDBLOCK` and `poll` (after any number
of calls interrupted by `EAGAIN`/`EINTR`) returns `0`, then `client_to_svr_extend`
returns, its result is `PBS_NET_RC_RETRY` (-2), not `PBS_NET_RC_FATAL` and not a socket,
and it has closed the socket it created exactly once, as its last call. -/
theorem transient_connect_is_retry (fuel : Nat) (env : ConnEnv) (sp flags : Nat)
    (la : Option Unit) (hreach : ReachesConnect fuel env sp flags la)
    (ht : ConnectTransient fuel env) :
    ∃ r, client_to_svr_extend fuel env sp flags la = some r ∧
      r.ret = PBS_NET_RC_RETRY ∧ r.ret ≠ PBS_NET_RC_FATAL ∧ r.ret < 0 ∧
      r.calls.count (NetCall.close env.socket) = 1 ∧
      r.calls.getLast? = some (NetCall.close env.socket) := by
  obtain ⟨pre, sp2, hpre, _, _, hres⟩ := reaches_connect_result fuel env sp flags la hreach
  obtain ⟨calls, hc, hnc⟩ := connect_phase_transient fuel env env.socket flags hreach.2.1 ht
  have hcl := count_close_append_last pre calls env.socket hpre hnc
  have hne : PBS_NET_RC_RETRY ≠ PBS_NET_RC_FATAL := by decide
  have hneg : PBS_NET_RC_RETRY < 0 := by decide
  exact ⟨_, hres _ _ hc, rfl, hne, hneg, hcl.1, hcl.2⟩

/-- Witness of C4: a reserved-port call whose connect is in progress, whose first `poll`
is interrupted and whose second `poll` times out. -/
theorem transient_connect_is_retry_witness :
    ReachesConnect 600 slow_connect_conn 0 B_RESERVED none ∧
    ConnectTransient 600 slow_connect_conn ∧
    ∃ r, client_to_svr_extend 600 slow_connect_conn 0 B_RESERVED none = some r ∧
      r.ret = PBS_NET_RC_RETRY ∧ r.ret ≠ PBS_NET_RC_FATAL ∧ r.ret < 0 ∧
      r.calls.count (NetCall.close slow_connect_conn.socket) = 1 ∧
      r.calls.getLast? = some (NetCall.close slow_connect_conn.socket) :=
  ⟨slow_connect_reaches, slow_connect_transient,
    transient_connect_is_retry 600 slow_connect_conn 0 B_RESERVED none
      slow_connect_reaches slow_connect_transient⟩

/-- C5, as stated, fails: with `B_SVR` set, the connection established and the server
handshake returning `CS_AUTH_CHECK_PORT`, which is neither `CS_SUCCESS` nor a code of the
client path, `client_to_svr_extend` returns the socket (5) and issues no `close`. -/
theorem server_check_port_is_accepted :
    client_to_svr_extend 600 check_port_conn 0 B_SVR none =
      some { ret := 5, start_port := 0,
             calls := [NetCall.socket 5, NetCall.fcntl_getfl 5, NetCall.fcntl_setfl 5 true,
                       NetCall.connect 5, NetCall.fcntl_setfl 5 false,
                       NetCall.CS_server_auth 5] } ∧
    handshake_code check_port_conn B_SVR = CsCode.CS_AUTH_CHECK_PORT ∧
    ¬ ClaimedSuccess B_SVR (handshake_code check_port_conn B_SVR) := by
  refine ⟨by decide, by decide, ?_⟩
  unfold ClaimedSuccess
  decide

/-- C5, amended. Once the connection is established and the socket is back in blocking
mode, `client_to_svr_extend` calls the server handshake if `B_SVR` is set in
`authport_flags` and the client handshake otherwise (and not the other one); it returns
the socket, a value `>= 0`, without closing it, if and only if that handshake returns a
code `engage_authentication` recognises: `CS_SUCCESS`, or `CS_AUTH_USE_IFF` on the client
path, or `CS_AUTH_CHECK_PORT` on the server path; for every other handshake code it
closes the socket exactly once, as its last call, and returns `PBS_NET_RC_FATAL`. -/
theorem authentication_decides_result (fuel : Nat) (env : ConnEnv) (sp flags : Nat)
    (la : Option Unit) (hreach : ReachesConnect fuel env sp flags la)
    (hest : ConnectEstablished fuel env) (hrestore : env.setfl_restore_ok = true) :
    ∃ r, client_to_svr_extend fuel env sp flags la = some r ∧
      handshake_call env.socket flags ∈ r.calls ∧
      (flags &&& B_SVR ≠ 0 → ∀ fd, NetCall.CS_client_auth fd ∉ r.calls) ∧
      (flags &&& B_SVR = 0 → ∀ fd, NetCall.CS_server_auth fd ∉ r.calls) ∧
      (r.ret = env.socket ↔ RecognisedSuccess flags (handshake_code env flags)) ∧
      (RecognisedSuccess flags (handshake_code env flags) →
        0 ≤ r.ret ∧ ∀ fd, NetCall.close fd ∉ r.calls) ∧
      (¬ RecognisedSuccess flags (handshake_code env flags) →
        r.ret = PBS_NET_RC_FATAL ∧ r.calls.count (NetCall.close env.socket) = 1 ∧
        r.calls.getLast? = some (NetCall.close env.socket)) := by
  obtain ⟨pre, sp2, hpre, hpreS, hpreC, hres⟩ :=
    reaches_connect_result fuel env sp flags la hreach
  obtain ⟨pre2, hpre2, hpre2S, hpre2C, hc⟩ :=
    connect_phase_established fuel env env.socket flags hreach.2.1 hest
  have hsock := hreach.1
  by_cases hrec : RecognisedSuccess flags (handshake_code env flags)
  · rw [finish_connect_ok env env.socket flags hsock hrestore hrec] at hc
    refine ⟨_, hres _ _ hc, ?_, ?_, ?_, ?_, ?_, ?_⟩
    · simp
    · intro hf fd hm
      simp only [List.mem_append, List.mem_cons, List.not_mem_nil, or_false] at hm
      rcases hm with hm | hm | hm | hm
      · exact hpreC fd hm
      · exact hpre2C fd hm
      · cases hm
      · rw [handshake_call_server _ _ hf] at hm; cases hm
    · intro hf fd hm
      simp only [List.mem_append, List.mem_cons, List.not_mem_nil, or_false] at hm
      rcases hm with hm | hm | hm | hm
      · exact hpreS fd hm
      · exact hpre2S fd hm
      · cases hm
      · rw [handshake_call_client _ _ hf] at hm; cases hm
    · exact ⟨fun _ => hrec, fun _ => rfl⟩
    · intro _
      refine ⟨hsock, ?_⟩
      intro fd hm
      simp only [List.mem_append, List.mem_cons, List.not_mem_nil, or_false] at hm
      rcases hm with hm | hm | hm | hm
      · exact hpre fd hm
      · exact hpre2 fd hm
      · cases hm
      · exact handshake_call_not_close _ _ _ hm
    · intro hn; exact absurd hrec hn
  · obtain ⟨rest, hfin, hrest, hrestS, hrestC⟩ :=
      finish_connect_fail env env.socket flags hsock hrestore hrec
    rw [hfin] at hc
    refine ⟨_, hres _ _ hc, ?_, ?_, ?_, ?_, ?_, ?_⟩
    · simp
    · intro hf fd hm
      simp only [List.mem_append, List.mem_cons, List.not_mem_nil, or_false] at hm
      rcases hm with hm | hm | (hm | hm | hm) | hm
      · exact hpreC fd hm
      · exact hpre2C fd hm
      · cases hm
      · rw [handshake_call_server _ _ hf] at hm; cases hm
      · exact hrestC fd hm
      · cases hm
    · intro hf fd hm
      simp only [List.mem_append, List.mem_cons, List.not_mem_nil, or_false] at hm
      rcases hm with hm | hm | (hm | hm | hm) | hm
      · exact hpreS fd hm
      · exact hpre2S fd hm
      · cases hm
      · rw [handshake_call_client _ _ hf] at hm; cases hm
      · exact hrestS fd hm
      · cases hm
    · constructor
      · intro heq
        exfalso
        have : (PBS_NET_RC_FATAL : Int) = env.socket := heq
        unfold PBS_NET_RC_FATAL at this
        omega
      · intro h; exact absurd h hrec
    · intro h; exact absurd h hrec
    · intro _
      have hnc : NetCall.close env.socket ∉
          pre2 ++ (NetCall.fcntl_setfl env.socket false :: handshake_call env.socket flags :: rest) := by
        intro hm
        simp only [List.mem_append, List.mem_cons] at hm
        rcases hm with hm | hm | hm | hm
        · exact hpre2 _ hm
        · cases hm
        · exact handshake_call_not_close _ _ _ hm
        · exact hrest _ hm
      have hcl := count_close_append_last pre _ env.socket hpre hnc
      refine ⟨rfl, ?_, ?_⟩
      · simp only [List.append_assoc] at hcl ⊢
        exact hcl.1
      · simp only [List.append_assoc] at hcl ⊢
        exact hcl.2

/-- Witness of the amended C5: the server role with a handshake that returns
`CS_AUTH_CHECK_PORT`. -/
theorem authentication_decides_result_witness :
    ReachesConnect 600 check_port_conn 0 B_SVR none ∧
    ConnectEstablished 600 check_port_conn ∧
    check_port_conn.setfl_restore_ok = true ∧
    ∃ r, client_to_svr_extend 600 check_port_conn 0 B_SVR none = some r ∧
      (r.ret = check_port_conn.socket ↔
        RecognisedSuccess B_SVR (handshake_code check_port_conn B_SVR)) :=
  have hreach : ReachesConnect 600 check_port_conn 0 B_SVR none :=
    ⟨by decide, rfl, fun h => absurd h (by decide)⟩
  have hest : ConnectEstablished 600 check_port_conn := Or.inl rfl
  ⟨hreach, hest, rfl,
    match authentication_decides_result 600 check_port_conn 0 B_SVR none hreach hest rfl with
    | ⟨r, hr, _, _, _, hiff, _, _⟩ => ⟨r, hr, hiff⟩⟩

/-- C6. Reserved-port exhaustion ends with a retryable result: in a call with
`B_RESERVED` set that gets as far as the bind loop, from every value the static
`start_port` can hold, (1) if every bind attempt fails with `EADDRINUSE` or
`EADDRNOTAVAIL`, the loop ends after exactly `IPPORT_RESERVED/2` (512) attempts, having
tried every port of `[IPPORT_RESERVED/2, IPPORT_RESERVED-1]` exactly once, walking
downward from its starting port and wrapping to `IPPORT_RESERVED-1`, and the function
closes the socket (once, as its last call) and returns `PBS_NET_RC_RETRY`; (2) if, after
`k` such soft failures, a bind attempt fails with any other errno, the function closes
the socket and returns `PBS_NET_RC_FATAL`. -/
theorem reserved_port_exhaustion (fuel : Nat) (env : ConnEnv) (sp flags : Nat)
    (la : Option Unit) (hreach : ReachesBind env flags la) (hsp : StartPortOk sp) :
    (512 ≤ fuel → (∀ p, InRange p → BindSoft env p) →
      ∃ r, client_to_svr_extend fuel env sp flags la = some r ∧
        r.ret = PBS_NET_RC_RETRY ∧
        tried_ports r.calls = (List.range 512).map (port_at (advance_start_port env sp)) ∧
        (tried_ports r.calls).length = IPPORT_RESERVED / 2 ∧
        (∀ p, InRange p → (tried_ports r.calls).count p = 1) ∧
        (∀ p ∈ tried_ports r.calls, InRange p) ∧
        r.calls.count (NetCall.close env.socket) = 1 ∧
        r.calls.getLast? = some (NetCall.close env.socket)) ∧
    (∀ k e, k < 512 → k < fuel →
      (∀ j, j < k → BindSoft env (port_at (advance_start_port env sp) j)) →
      env.bind (port_at (advance_start_port env sp) k) = SysRet.error e →
      e ≠ EADDRINUSE → e ≠ EADDRNOTAVAIL →
      ∃ r, client_to_svr_extend fuel env sp flags la = some r ∧
        r.ret = PBS_NET_RC_FATAL ∧
        tried_ports r.calls = (List.range (k + 1)).map (port_at (advance_start_port env sp)) ∧
        r.calls.count (NetCall.close env.socket) = 1 ∧
        r.calls.getLast? = some (NetCall.close env.socket)) := by
  have hs := advance_start_port_inRange env sp hsp
  constructor
  · intro hfuel hsoft
    have hb := bind_loop_exhausted env env.socket _ hs fuel hfuel hsoft
    have hres := reserved_unfold fuel env sp flags la hreach
    rw [hb] at hres
    have htp : tried_ports (reserved_pre env sp la ++
        ((List.range 512).map (fun j => NetCall.bind env.socket
          (port_at (advance_start_port env sp) j)) ++ [NetCall.close env.socket])) =
        (List.range 512).map (port_at (advance_start_port env sp)) := by
      rw [tried_ports_append, tried_ports_append, tried_ports_reserved_pre,
        tried_ports_map_bind]
      simp [tried_ports]
    have hcl := count_close_append_last (reserved_pre env sp la) _ env.socket
      (fun fd => close_not_mem_reserved_pre env sp la fd)
      (close_not_mem_map_bind env.socket (port_at (advance_start_port env sp))
        (List.range 512) env.socket)
    refine ⟨_, hres, rfl, htp, ?_, ?_, ?_, hcl.1, hcl.2⟩
    · simp only [htp]; simp [IPPORT_RESERVED]
    · intro p hp
      simp only [htp]
      exact List.count_eq_one_of_mem (walk_nodup _ hs 512 (le_refl _)) (walk_covers _ p hs hp)
    · intro p hp
      simp only [htp] at hp
      rw [List.mem_map] at hp
      obtain ⟨j, hj, hjp⟩ := hp
      rw [List.mem_range] at hj
      rw [← hjp]
      exact port_at_inRange _ j hs hj
  · intro k e hk hfuel hsoft hbind h1 h2
    have hb := bind_loop_hard env env.socket _ hs k fuel e hk hfuel hsoft hbind ⟨h1, h2⟩
    have hres := reserved_unfold fuel env sp flags la hreach
    rw [hb] at hres
    have htp : tried_ports (reserved_pre env sp la ++
        ((List.range (k + 1)).map (fun j => NetCall.bind env.socket
          (port_at (advance_start_port env sp) j)) ++ [NetCall.close env.socket])) =
        (List.range (k + 1)).map (port_at (advance_start_port env sp)) := by
      rw [tried_ports_append, tried_ports_append, tried_ports_reserved_pre,
        tried_ports_map_bind]
      simp [tried_ports]
    have hcl := count_close_append_last (reserved_pre env sp la) _ env.socket
      (fun fd => close_not_mem_reserved_pre env sp la fd)
      (close_not_mem_map_bind env.socket (port_at (advance_start_port env sp))
        (List.range (k + 1)) env.socket)
    exact ⟨_, hres, rfl, htp, hcl.1, hcl.2⟩

/-- Witness of C6: the first call of process 4711 with every port in use, and with port
615 in use and `bind` denied on port 614. -/
theorem reserved_port_exhaustion_witness :
    ReachesBind all_busy_conn B_RESERVED none ∧ StartPortOk 0 ∧
    (∀ p, InRange p → BindSoft all_busy_conn p) ∧
    (∃ r, client_to_svr_extend 600 all_busy_conn 0 B_RESERVED none = some r ∧
      r.ret = PBS_NET_RC_RETRY ∧ (tried_ports r.calls).length = IPPORT_RESERVED / 2) ∧
    (∃ r, client_to_svr_extend 600 bind_denied_conn 0 B_RESERVED none = some r ∧
      r.ret = PBS_NET_RC_FATAL ∧ r.calls.count (NetCall.close bind_denied_conn.socket) = 1) :=
  have hsp : StartPortOk 0 := Or.inl rfl
  have hr1 : ReachesBind all_busy_conn B_RESERVED none :=
    ⟨by decide, by decide, by decide, by decide⟩
  have hr2 : ReachesBind bind_denied_conn B_RESERVED none :=
    ⟨by decide, by decide, by decide, by decide⟩
  have hsoft : ∀ p, InRange p → BindSoft all_busy_conn p :=
    fun _ _ => ⟨EADDRINUSE, rfl, Or.inl rfl⟩
  have hsoft2 : ∀ j, j < 1 →
      BindSoft bind_denied_conn (port_at (advance_start_port bind_denied_conn 0) j) := by
    intro j hj
    have hj0 : j = 0 := by omega
    subst hj0
    exact ⟨EADDRINUSE, by decide, Or.inl rfl⟩
  ⟨hr1, hsp, hsoft,
    match (reserved_port_exhaustion 600 all_busy_conn 0 B_RESERVED none hr1 hsp).1
      (by decide) hsoft with
    | ⟨r, hr, hret, _, hlen, _⟩ => ⟨r, hr, hret, hlen⟩,
    match (reserved_port_exhaustion 600 bind_denied_conn 0 B_RESERVED none hr2 hsp).2 1 13
      (by decide) (by decide) hsoft2 (by decide) (by decide) (by decide) with
    | ⟨r, hr, hret, _, hcount, _⟩ => ⟨r, hr, hret, hcount⟩⟩

set_option maxRecDepth 1000000 in
/-- C7, as stated, fails: the first call of process 4711 starts its search at port 615,
finds the 511 ports it tries first in use and binds port 616 on its 512th attempt; the
next call, for which every port is free, starts its search at port 615 again. Both calls
bind successfully and return the socket. -/
theorem spreading_fails_after_full_walk :
    (client_to_svr_extend 600 (one_free_port_conn 616) 0 B_RESERVED none).map
      (fun r => (r.ret, search_start r, (tried_ports r.calls).length, r.start_port))
      = some (5, some 615, 512, 616) ∧
    (client_to_svr_extend 600 smooth_conn 616 B_RESERVED none).map
      (fun r => (r.ret, search_start r, (tried_ports r.calls).length, r.start_port))
      = some (5, some 615, 1, 615) := by
  decide

/-- C7, amended. Spreading property of the reserved-port binder: for every two
consecutive calls of `client_to_svr_extend` with `B_RESERVED` set that get as far as the
bind loop, if the first call binds successfully after `k <= 510` refused ports (that is,
within its first 511 attempts, as it does whenever more than one port of the range is
free), then the port at which the second call starts its search differs from the port at
which the first call started its search: it is the port that follows, in the downward
walk, the one the first call bound. -/
theorem spreading_of_start_ports (fuel1 fuel2 : Nat) (env1 env2 : ConnEnv)
    (sp0 flags1 flags2 : Nat) (la1 la2 : Option Unit) (k : Nat) (r1 r2 : ConnResult)
    (hsp : StartPortOk sp0)
    (h1 : ReachesBind env1 flags1 la1) (h2 : ReachesBind env2 flags2 la2)
    (hk : k ≤ 510) (hfuel : k < fuel1)
    (hsoft : ∀ j, j < k → BindSoft env1 (port_at (advance_start_port env1 sp0) j))
    (hbind : env1.bind (port_at (advance_start_port env1 sp0) k) = SysRet.ok ())
    (hr1 : client_to_svr_extend fuel1 env1 sp0 flags1 la1 = some r1)
    (hr2 : client_to_svr_extend fuel2 env2 r1.start_port flags2 la2 = some r2) :
    search_start r1 = some (advance_start_port env1 sp0) ∧
    search_start r2 = some (port_at (advance_start_port env1 sp0) (k + 1)) ∧
    search_start r2 ≠ search_start r1 := by
  have hs := advance_start_port_inRange env1 sp0 hsp
  have hstart1 := search_start_eq fuel1 env1 sp0 flags1 la1 r1 h1 hr1
  have hsp1 := start_port_after_bind fuel1 env1 sp0 flags1 la1 r1 k h1 hsp (by omega) hfuel
    hsoft hbind hr1
  have hstart2 := search_start_eq fuel2 env2 r1.start_port flags2 la2 r2 h2 hr2
  have hin := port_at_inRange (advance_start_port env1 sp0) k hs (by omega)
  have hne0 : r1.start_port ≠ 0 := by
    rw [hsp1]
    unfold InRange IPPORT_RESERVED at hin
    omega
  rw [advance_start_port_eq_next env2 _ hne0, hsp1,
    next_port_port_at _ k hs (by omega)] at hstart2
  refine ⟨hstart1, hstart2, ?_⟩
  rw [hstart1, hstart2]
  intro heq
  exact port_at_ne_start _ (k + 1) hs (by omega) (by omega) (Option.some.inj heq)

/-- Witness of the amended C7: two calls of process 4711 with every port free; the first
starts at port 615 and binds it, the second starts at port 614. -/
theorem spreading_of_start_ports_witness :
    client_to_svr_extend 600 smooth_conn 0 B_RESERVED none = some first_smooth_result ∧
    client_to_svr_extend 600 smooth_conn first_smooth_result.start_port B_RESERVED none
      = some second_smooth_result ∧
    search_start second_smooth_result ≠ search_start first_smooth_result :=
  have hr1 : client_to_svr_extend 600 smooth_conn 0 B_RESERVED none
      = some first_smooth_result := by decide
  have hr2 : client_to_svr_extend 600 smooth_conn first_smooth_result.start_port B_RESERVED none
      = some second_smooth_result := by decide
  have hb : ReachesBind smooth_conn B_RESERVED none :=
    ⟨by decide, by decide, by decide, by decide⟩
  ⟨hr1, hr2,
    (spreading_of_start_ports 600 600 smooth_conn smooth_conn 0 B_RESERVED B_RESERVED
      none none 0 first_smooth_result second_smooth_result (Or.inl rfl) hb hb (by decide)
      (by decide) (fun j hj => absurd hj (Nat.not_lt_zero j)) (by decide) hr1 hr2).2.2⟩

/-- C9, as stated, fails: two successive calls do not always leave the option enabled
with a silent second call. When the first call's `setsockopt` fails, it returns `-1` and
the option is still off, and the second call issues `setsockopt` again; likewise when the
first call's `getsockopt` fails, after which the first call returns `0` with the option
still off. -/
theorem set_nodelay_second_call_sets_option :
    set_nodelay { getsockopt_fails := false, setsockopt_fails := true } 7 { nodelay := 0 } =
      { ret := -1, sock := { nodelay := 0 },
        calls := [OptCall.getsockopt 7, OptCall.setsockopt 7 1] } ∧
    (set_nodelay { getsockopt_fails := false, setsockopt_fails := false } 7
      (set_nodelay { getsockopt_fails := false, setsockopt_fails := true } 7
        { nodelay := 0 }).sock).calls = [OptCall.getsockopt 7, OptCall.setsockopt 7 1] ∧
    set_nodelay { getsockopt_fails := true, setsockopt_fails := false } 7 { nodelay := 0 } =
      { ret := 0, sock := { nodelay := 0 }, calls := [OptCall.getsockopt 7] } ∧
    (set_nodelay { getsockopt_fails := false, setsockopt_fails := false } 7
      (set_nodelay { getsockopt_fails := true, setsockopt_fails := false } 7
        { nodelay := 0 }).sock).calls = [OptCall.getsockopt 7, OptCall.setsockopt 7 1] := by
  decide

/-- C9, amended. `set_nodelay` is idempotent over a socket on which a successful
`setsockopt(TCP_NODELAY, 1)` makes the option read back as `1`: (1) when the option is
already enabled, `set_nodelay` returns `0`, leaves the socket unchanged and issues no
`setsockopt`, whatever the socket layer answers; (2) hence, when the option calls of a
first `set_nodelay` succeed, the option is enabled after it, and a second call on the
same socket returns `0`, leaves the option enabled and issues no `setsockopt`. -/
theorem set_nodelay_idempotent (env1 env2 : SockOptEnv) (fd : Int) (s : TcpSock) :
    (s.nodelay = 1 →
      (set_nodelay env1 fd s).ret = 0 ∧ (set_nodelay env1 fd s).sock = s ∧
      ∀ d v, OptCall.setsockopt d v ∉ (set_nodelay env1 fd s).calls) ∧
    (env1.getsockopt_fails = false → env1.setsockopt_fails = false →
      (set_nodelay env1 fd s).sock.nodelay = 1 ∧
      (set_nodelay env2 fd (set_nodelay env1 fd s).sock).ret = 0 ∧
      (set_nodelay env2 fd (set_nodelay env1 fd s).sock).sock.nodelay = 1 ∧
      ∀ d v, OptCall.setsockopt d v ∉
        (set_nodelay env2 fd (set_nodelay env1 fd s).sock).calls) := by
  have henabled : ∀ (env : SockOptEnv) (t : TcpSock), t.nodelay = 1 →
      (set_nodelay env fd t).ret = 0 ∧ (set_nodelay env fd t).sock = t ∧
      ∀ d v, OptCall.setsockopt d v ∉ (set_nodelay env fd t).calls := by
    intro env t ht
    unfold set_nodelay
    by_cases hg : env.getsockopt_fails = true
    · simp [hg]
    · simp [hg, ht]
  refine ⟨henabled env1 s, ?_⟩
  intro hg hs
  have hfirst : (set_nodelay env1 fd s).sock.nodelay = 1 := by
    unfold set_nodelay setsockopt_nodelay
    by_cases h1 : s.nodelay = 1
    · simp [hg, h1]
    · simp [hg, hs, h1]
  have hsecond := henabled env2 _ hfirst
  exact ⟨hfirst, hsecond.1, by rw [hsecond.2.1]; exact hfirst, hsecond.2.2⟩

/-- Witness of the amended C9: two calls on descriptor 7 of a socket whose option is off,
with a
socket layer whose calls succeed. -/
theorem set_nodelay_idempotent_witness :
    (set_nodelay { getsockopt_fails := false, setsockopt_fails := false } 7
      { nodelay := 0 }).sock.nodelay = 1 ∧
    (set_nodelay { getsockopt_fails := false, setsockopt_fails := false } 7
      (set_nodelay { getsockopt_fails := false, setsockopt_fails := false } 7
        { nodelay := 0 }).sock).calls = [OptCall.getsockopt 7] ∧
    ∀ d v, OptCall.setsockopt d v ∉
      (set_nodelay { getsockopt_fails := false, setsockopt_fails := false } 7
        (set_nodelay { getsockopt_fails := false, setsockopt_fails := false } 7
          { nodelay := 0 }).sock).calls :=
  have h := (set_nodelay_idempotent { getsockopt_fails := false, setsockopt_fails := false }
    { getsockopt_fails := false, setsockopt_fails := false } 7 { nodelay := 0 }).2 rfl rfl
  ⟨h.1, rfl, h.2.2.2⟩

/-! ## Claim on the forwarder: the control descriptor -/

theorem getSlot_modSlot_ne (socks : List pfwdsock) (i j : Nat) (f : pfwdsock → pfwdsock)
    (h : j ≠ i) : getSlot (modSlot socks i f) j = getSlot socks j := by
  rw [getSlot_modSlot]
  simp [h]

theorem getSlot_modSlot_self (socks : List pfwdsock) (i : Nat) (f : pfwdsock → pfwdsock)
    (hf : f pfwdsock.zero = pfwdsock.zero) :
    getSlot (modSlot socks i f) i = f (getSlot socks i) := by
  rw [getSlot_modSlot]
  by_cases h : i < socks.length
  · simp [h]
  · have hz : getSlot socks i = pfwdsock.zero := by
      unfold getSlot
      exact List.getD_eq_default _ _ (by omega)
    simp [h, hz, hf]

theorem lt_length_of_ne_zero (socks : List pfwdsock) (i : Nat)
    (h : getSlot socks i ≠ pfwdsock.zero) : i < socks.length := by
  by_contra hc
  apply h
  unfold getSlot
  exact List.getD_eq_default _ _ (by omega)

theorem getSlot_modSlot_eq (socks : List pfwdsock) (i : Nat) (f : pfwdsock → pfwdsock)
    (h : getSlot socks i ≠ pfwdsock.zero) :
    getSlot (modSlot socks i f) i = f (getSlot socks i) := by
  rw [getSlot_modSlot]
  simp [lt_length_of_ne_zero socks i h]

theorem watch_slot_w (P : PfParams) (socks : List pfwdsock) (sets : FdSets) (n : Nat) (fd : Int)
    (h : sets.w fd = true) : (watch_slot P socks sets n).w fd = true := by
  unfold watch_slot
  dsimp only
  split
  · exact h
  · split
    · exact h
    · split <;> split <;> simp [FD_SET, h]

theorem watch_slot_draining (P : PfParams) (socks : List pfwdsock) (sets : FdSets) (n p : Nat)
    (h : Draining P socks n p) :
    (watch_slot P socks sets p).w (getSlot socks p).sock = true := by
  obtain ⟨_, _, hact, hsock, hlis, hpeer, _, hlt⟩ := h
  unfold watch_slot
  dsimp only
  rw [if_neg (by simp only [not_or, not_lt]; exact ⟨hact, hsock⟩)]
  rw [if_neg (by simp [hlis])]
  rw [hpeer, if_pos (by omega)]
  split <;> simp [FD_SET]

theorem foldl_reaches {α β : Type} (Q : α → Prop) (f : α → β → α) (b : β)
    (hest : ∀ a, Q (f a b)) (hstep : ∀ a x, Q a → Q (f a x)) :
    ∀ (l : List β) (a : α), b ∈ l → Q (l.foldl f a) := by
  intro l
  induction l with
  | nil => intro a hb; cases hb
  | cons x l ih =>
    intro a hb
    rcases List.mem_cons.mp hb with hx | hl
    · subst hx
      exact foldl_invariant Q f l hstep _ (hest a)
    · exact ih _ hl

theorem watch_draining (P : PfParams) (socks : List pfwdsock) (n p : Nat)
    (h : Draining P socks n p) : (watch P socks).w (getSlot socks p).sock = true := by
  unfold watch
  dsimp only
  refine foldl_reaches (fun (sets : FdSets) => sets.w (getSlot socks p).sock = true)
    _ p ?_ ?_ _ _ (List.mem_range.mpr h.1)
  · intro a
    exact watch_slot_draining P socks a n p h
  · intro a x ha
    exact watch_slot_w P socks a x _ ha

theorem tear_down_self (n : Nat) (st : PfState) :
    getSlot (tear_down n st).socks n = { getSlot st.socks n with active := 0 } := by
  simp only [tear_down]
  exact getSlot_modSlot_self _ _ _ rfl

theorem tear_down_other (n m : Nat) (st : PfState) (h : m ≠ n) :
    getSlot (tear_down n st).socks m = getSlot st.socks m := by
  simp only [tear_down]
  exact getSlot_modSlot_ne _ _ _ _ h

theorem tear_down_calls (n : Nat) (st : PfState) :
    (tear_down n st).calls =
      st.calls ++ [PfCall.shutdown (getSlot st.socks n).sock, PfCall.close (getSlot st.socks n).sock] := by
  simp only [tear_down]

/-- What the write step of slot `n` does to slot `n` itself and to its peer, another
slot: slot `n` is left alone or torn down, the peer keeps all but `bufwritten`, and the
calls issued so far stay. -/
theorem write_step_frame (env : IterEnv) (fds : FdSets) (n : Nat) (st : PfState)
    (hne : (getSlot st.socks n).peer ≠ n) :
    (getSlot (write_step env fds n st).2.socks n = getSlot st.socks n ∨
      getSlot (write_step env fds n st).2.socks n = { getSlot st.socks n with active := 0 }) ∧
    SameLink (getSlot (write_step env fds n st).2.socks (getSlot st.socks n).peer)
      (getSlot st.socks (getSlot st.socks n).peer) ∧
    (getSlot (write_step env fds n st).2.socks (getSlot st.socks n).peer).bufavail =
      (getSlot st.socks (getSlot st.socks n).peer).bufavail ∧
    (∀ c, c ∈ st.calls → c ∈ (write_step env fds n st).2.calls) := by
  unfold write_step
  dsimp only
  split
  · split
    · split
      · exact ⟨Or.inl rfl, ⟨rfl, rfl, rfl, rfl⟩, rfl, fun c hc => by simp [PfState.emit, hc]⟩
      · refine ⟨Or.inr ?_, ?_, ?_, ?_⟩
        · simp only [PfState.emit]
          exact tear_down_self n _
        · simp only [PfState.emit, SameLink]
          rw [tear_down_other _ _ _ hne]
          exact ⟨rfl, rfl, rfl, rfl⟩
        · simp only [PfState.emit]
          rw [tear_down_other _ _ _ hne]
        · intro c hc
          simp [PfState.emit, tear_down, hc]
    · split
      · refine ⟨Or.inr ?_, ?_, ?_, ?_⟩
        · exact tear_down_self n _
        · simp only [SameLink]
          rw [tear_down_other _ _ _ hne]
          exact ⟨rfl, rfl, rfl, rfl⟩
        · rw [tear_down_other _ _ _ hne]
          rfl
        · intro c hc
          simp [PfState.emit, tear_down, hc]
      · refine ⟨Or.inl ?_, ?_, ?_, ?_⟩
        · dsimp only [emit_socks]
          exact getSlot_modSlot_ne _ _ _ _ (Ne.symm hne)
        · simp only [emit_socks, SameLink]
          rw [getSlot_modSlot]
          split <;> exact ⟨rfl, rfl, rfl, rfl⟩
        · simp only [emit_socks]
          rw [getSlot_modSlot]
          split <;> rfl
        · intro c hc
          simp [PfState.emit, hc]
  · exact ⟨Or.inl rfl, ⟨rfl, rfl, rfl, rfl⟩, rfl, fun c hc => hc⟩

/-- What the reclamation step of slot `n` does when its peer is another slot: slot `n`
is left alone or torn down, and left alone for sure when the peer is active; the peer
keeps its state, descriptor, role and pairing; the calls issued so far stay. -/
theorem reclaim_step_frame (n : Nat) (st : PfState) (hne : (getSlot st.socks n).peer ≠ n) :
    (getSlot (reclaim_step n st).socks n = getSlot st.socks n ∨
      getSlot (reclaim_step n st).socks n = { getSlot st.socks n with active := 0 }) ∧
    ((getSlot st.socks (getSlot st.socks n).peer).active ≠ 0 ∨
        (getSlot st.socks (getSlot st.socks n).peer).bufavail ≠
          (getSlot st.socks (getSlot st.socks n).peer).bufwritten →
      getSlot (reclaim_step n st).socks n = getSlot st.socks n) ∧
    SameLink (getSlot (reclaim_step n st).socks (getSlot st.socks n).peer)
      (getSlot st.socks (getSlot st.socks n).peer) ∧
    (∀ c, c ∈ st.calls → c ∈ (reclaim_step n st).calls) := by
  unfold reclaim_step
  dsimp only
  split
  · split
    · rename_i hl heq
      have hn : getSlot (modSlot st.socks (getSlot st.socks n).peer
          (fun p => { p with bufwritten := 0, bufavail := 0 })) n = getSlot st.socks n :=
        getSlot_modSlot_ne _ _ _ _ (Ne.symm hne)
      have hp : SameLink (getSlot (modSlot st.socks (getSlot st.socks n).peer
          (fun p => { p with bufwritten := 0, bufavail := 0 })) (getSlot st.socks n).peer)
          (getSlot st.socks (getSlot st.socks n).peer) := by
        rw [getSlot_modSlot_self _ _ _ rfl]
        exact ⟨rfl, rfl, rfl, rfl⟩
      split
      · rename_i hc
        refine ⟨Or.inr ?_, ?_, ?_, ?_⟩
        · rw [tear_down_self]
          dsimp only
          rw [hn]
        · intro hact
          rcases hact with hact | hact
          · exact absurd (hp.1 ▸ hc.1) hact
          · exact absurd heq hact
        · unfold SameLink
          rw [tear_down_other _ _ _ hne]
          exact hp
        · intro c hc2
          simp [tear_down, hc2]
      · exact ⟨Or.inl hn, fun _ => hn, hp, fun c hc => hc⟩
    · split
      · rename_i hc
        refine ⟨Or.inr (tear_down_self n st), ?_, ?_, ?_⟩
        · intro hact
          rcases hact with hact | hact
          · exact absurd hc.1 hact
          · exact absurd hc.2.symm hact
        · unfold SameLink
          rw [tear_down_other _ _ _ hne]
          exact ⟨rfl, rfl, rfl, rfl⟩
        · intro c hc2
          simp [tear_down, hc2]
      · exact ⟨Or.inl rfl, fun _ => rfl, ⟨rfl, rfl, rfl, rfl⟩, fun c hc => hc⟩
  · exact ⟨Or.inl rfl, fun _ => rfl, ⟨rfl, rfl, rfl, rfl⟩, fun c hc => hc⟩

theorem SameLink.trans {a b c : pfwdsock} (h1 : SameLink a b) (h2 : SameLink b c) :
    SameLink a c :=
  ⟨h1.1.trans h2.1, h1.2.1.trans h2.2.1, h1.2.2.1.trans h2.2.2.1, h1.2.2.2.trans h2.2.2.2⟩

/-- The read step of an orderly close: the slot is torn down, nothing else changes. -/
theorem read_step_orderly_close (P : PfParams) (env : IterEnv) (fds : FdSets) (st : PfState)
    (n p : Nat) (h : OrderlyClose P env fds st n p) :
    read_step P env fds n st =
      (false, tear_down n (st.emit [PfCall.read n (getSlot st.socks n).sock
        ((P.PF_BUF_SIZE : Int) - (getSlot st.socks n).bufavail) (SysRet.ok [])])) := by
  obtain ⟨_, _, _, hlis, _, hr, hread⟩ := h
  unfold read_step data_read_step
  simp [hr, hlis, hread]

/-- The pass over a slot whose stream ends: the slot is torn down and keeps its buffer and
counters, and its peer keeps its state, descriptor, role and pairing. -/
theorem slot_pass_orderly_close (P : PfParams) (env : IterEnv) (fds : FdSets) (st : PfState)
    (n p : Nat) (h : OrderlyClose P env fds st n p) :
    PfCall.close (getSlot st.socks n).sock ∈ (slot_pass P env fds st n).calls ∧
    getSlot (slot_pass P env fds st n).socks n = { getSlot st.socks n with active := 0 } ∧
    SameLink (getSlot (slot_pass P env fds st n).socks p) (getSlot st.socks p) := by
  have hrs := read_step_orderly_close P env fds st n p h
  obtain ⟨hd, hact, hsock, hlis, hpeer, hr, hread⟩ := h
  have hpn : p ≠ n := hd.2.1
  generalize hA : tear_down n (st.emit [PfCall.read n (getSlot st.socks n).sock
        ((P.PF_BUF_SIZE : Int) - (getSlot st.socks n).bufavail) (SysRet.ok [])]) = stA at hrs
  have hAn : getSlot stA.socks n = { getSlot st.socks n with active := 0 } := by
    rw [← hA, tear_down_self]; rfl
  have hAp : getSlot stA.socks p = getSlot st.socks p := by
    rw [← hA, tear_down_other _ _ _ hpn]; rfl
  have hAc : PfCall.close (getSlot st.socks n).sock ∈ stA.calls := by
    rw [← hA, tear_down_calls]; simp [PfState.emit]
  have hApeer : (getSlot stA.socks n).peer = p := by rw [hAn]; exact hpeer
  have hw := write_step_frame env fds n stA (by rw [hApeer]; exact hpn)
  rw [hApeer] at hw
  obtain ⟨hwn, hwp, hwb, hwc⟩ := hw
  have hwn2 : getSlot (write_step env fds n stA).2.socks n = { getSlot st.socks n with active := 0 } := by
    rcases hwn with e | e
    · rw [e, hAn]
    · rw [e, hAn]
  unfold slot_pass
  dsimp only
  rw [if_neg (by simp only [not_or, not_lt]; exact ⟨hact, hsock⟩), hrs]
  dsimp only
  rw [if_neg (by simp)]
  split
  · refine ⟨hwc _ hAc, hwn2, ?_⟩
    rw [← hAp]; exact hwp
  · have hWpeer : (getSlot (write_step env fds n stA).2.socks n).peer = p := by
      rw [hwn2]; exact hpeer
    have hrc := reclaim_step_frame n (write_step env fds n stA).2 (by rw [hWpeer]; exact hpn)
    rw [hWpeer] at hrc
    obtain ⟨_, hrn, hrp, hrcalls⟩ := hrc
    have hpact : (getSlot (write_step env fds n stA).2.socks p).active ≠ 0 := by
      rw [hwp.1, hAp]; exact hd.2.2.1
    refine ⟨hrcalls _ (hwc _ hAc), ?_, ?_⟩
    · rw [hrn (Or.inl hpact), hwn2]
    · rw [← hAp]; exact hrp.trans hwp

/-- What the read step does for a data slot `n`: the other slots and the calls issued so
far stay, and unless `read` ends the slot it keeps its state, descriptor, role and
pairing. -/
theorem read_step_data_frame (P : PfParams) (env : IterEnv) (fds : FdSets) (n : Nat)
    (st : PfState) (hlis : (getSlot st.socks n).listening = 0) :
    (∀ m, m ≠ n → getSlot (read_step P env fds n st).2.socks m = getSlot st.socks m) ∧
    (∀ c, c ∈ st.calls → c ∈ (read_step P env fds n st).2.calls) ∧
    (¬ (fds.r (getSlot st.socks n).sock = true ∧
        ReadEnds (env.read n ((P.PF_BUF_SIZE : Int) - (getSlot st.socks n).bufavail))) →
      SameLink (getSlot (read_step P env fds n st).2.socks n) (getSlot st.socks n)) := by
  unfold read_step
  dsimp only
  split
  · rename_i hr
    rw [if_neg (by simp [hlis])]
    unfold data_read_step
    dsimp only
    split
    · rename_i errno heq
      split
      · exact ⟨fun m _ => rfl, fun c hc => by simp [PfState.emit, hc],
          fun _ => ⟨rfl, rfl, rfl, rfl⟩⟩
      · rename_i htr
        refine ⟨fun m hm => ?_, fun c hc => by simp [PfState.emit, tear_down, hc], fun hno => ?_⟩
        · simp only [emit_socks]
          exact tear_down_other _ _ _ hm
        · exfalso
          apply hno
          refine ⟨hr, ?_⟩
          rw [heq]
          simpa [ReadEnds] using htr
    · rename_i data heq
      split
      · rename_i hlen
        refine ⟨fun m hm => ?_, fun c hc => by simp [PfState.emit, tear_down, hc], fun hno => ?_⟩
        · exact tear_down_other _ _ _ hm
        · exfalso
          apply hno
          refine ⟨hr, ?_⟩
          rw [heq]
          exact hlen
      · refine ⟨fun m hm => ?_, fun c hc => by simp [PfState.emit, hc], fun _ => ?_⟩
        · simp only [emit_socks]
          exact getSlot_modSlot_ne _ _ _ _ hm
        · simp only [emit_socks, SameLink]
          rw [getSlot_modSlot]
          split <;> exact ⟨rfl, rfl, rfl, rfl⟩
  · exact ⟨fun m _ => rfl, fun c hc => hc, fun _ => ⟨rfl, rfl, rfl, rfl⟩⟩

/-- What the write step of slot `p` does while `write` does not end the slot: the slot is
left alone, and if the step does not skip the rest of the pass, either the peer is left
alone too or `k` bytes of the peer's buffer, from offset `bufwritten` on, went out on the
slot's descriptor and the peer's `bufwritten` advanced by `k`. -/
theorem write_step_draining (env : IterEnv) (fds : FdSets) (p n : Nat) (st : PfState)
    (hpeer : (getSlot st.socks p).peer = n) (hne : p ≠ n)
    (hnz : getSlot st.socks n ≠ pfwdsock.zero)
    (hno : ¬ (fds.w (getSlot st.socks p).sock = true ∧
      WriteEnds (env.write p ((getSlot st.socks n).bufavail - (getSlot st.socks n).bufwritten)))) :
    getSlot (write_step env fds p st).2.socks p = getSlot st.socks p ∧
    (∀ c, c ∈ st.calls → c ∈ (write_step env fds p st).2.calls) ∧
    ((write_step env fds p st).1 = false →
      getSlot (write_step env fds p st).2.socks n = getSlot st.socks n ∨
      ∃ k : Nat,
        (getSlot (write_step env fds p st).2.socks n).bufwritten =
          (getSlot st.socks n).bufwritten + k ∧
        (getSlot (write_step env fds p st).2.socks n).bufavail = (getSlot st.socks n).bufavail ∧
        PfCall.write p (getSlot st.socks p).sock
          ((getSlot st.socks n).bufavail - (getSlot st.socks n).bufwritten) (SysRet.ok k)
          (buf_slice (getSlot st.socks n).buff (getSlot st.socks n).bufwritten.toNat k) ∈
          (write_step env fds p st).2.calls) := by
  subst hpeer
  unfold write_step
  dsimp only
  split
  · rename_i hw
    split
    · rename_i errno heq
      split
      · exact ⟨rfl, fun c hc => by simp [PfState.emit, hc], fun hf => by simp at hf⟩
      · rename_i htr
        exfalso
        apply hno
        refine ⟨hw, ?_⟩
        rw [heq]
        simpa [WriteEnds] using htr
    · rename_i k heq
      split
      · rename_i hk
        exfalso
        apply hno
        refine ⟨hw, ?_⟩
        rw [heq]
        exact hk
      · refine ⟨?_, fun c hc => by simp [PfState.emit, hc], fun _ => Or.inr ⟨k, ?_, ?_, ?_⟩⟩
        · dsimp only [emit_socks]
          exact getSlot_modSlot_ne _ _ _ _ hne
        · dsimp only [emit_socks]
          rw [getSlot_modSlot_eq _ _ _ hnz]
        · dsimp only [emit_socks]
          rw [getSlot_modSlot_eq _ _ _ hnz]
        · rw [heq]
          simp [PfState.emit]
  · exact ⟨rfl, fun c hc => hc, fun _ => Or.inl rfl⟩

theorem ne_zero_of_unflushed (s : pfwdsock) (h : s.bufwritten < s.bufavail) :
    s ≠ pfwdsock.zero := by
  intro hz
  rw [hz] at h
  exact absurd h (by decide)

/-- The pass over a slot that drains its peer's buffer: if the slot is inactive afterwards
and no operation on its own descriptor ended it, then the pass wrote every unflushed byte
of the peer's buffer on the slot's descriptor. -/
theorem slot_pass_draining (P : PfParams) (env : IterEnv) (fds : FdSets) (st : PfState)
    (n p : Nat) (hd : Draining P st.socks n p)
    (hoff : (getSlot (slot_pass P env fds st p).socks p).active = 0) :
    OwnIoEnds P env fds st p ∨
    PfCall.write p (getSlot st.socks p).sock
      ((getSlot st.socks n).bufavail - (getSlot st.socks n).bufwritten)
      (SysRet.ok ((getSlot st.socks n).bufavail - (getSlot st.socks n).bufwritten).toNat)
      (unflushed (getSlot st.socks n)) ∈ (slot_pass P env fds st p).calls := by
  obtain ⟨_, hne, hact, hsock, hlis, hpeer, hw0, hlt⟩ := hd
  by_cases hends : OwnIoEnds P env fds st p
  · exact Or.inl hends
  right
  unfold OwnIoEnds at hends
  rw [hpeer] at hends
  have hnr := fun h => hends (Or.inl h)
  have hnw := fun h => hends (Or.inr h)
  obtain ⟨hRo, hRc, hRp⟩ := read_step_data_frame P env fds p st hlis
  have hRl := hRp hnr
  have hRn := hRo n (Ne.symm hne)
  unfold slot_pass at hoff ⊢
  dsimp only at hoff ⊢
  rw [if_neg (by simp only [not_or, not_lt]; exact ⟨hact, hsock⟩)] at hoff ⊢
  generalize read_step P env fds p st = r at hRo hRc hRp hRl hRn hoff ⊢
  have hract : (getSlot r.2.socks p).active ≠ 0 := by rw [hRl.1]; exact hact
  by_cases hr1 : r.1 = true
  · rw [if_pos hr1] at hoff
    exact absurd hoff hract
  rw [if_neg hr1] at hoff ⊢
  have hno : ¬ (fds.w (getSlot r.2.socks p).sock = true ∧
      WriteEnds (env.write p ((getSlot r.2.socks n).bufavail - (getSlot r.2.socks n).bufwritten))) := by
    rw [hRl.2.1, hRn]; exact hnw
  obtain ⟨hWp, hWc, hWn⟩ := write_step_draining env fds p n r.2 (hRl.2.2.2.trans hpeer) hne
    (by rw [hRn]; exact ne_zero_of_unflushed _ hlt) hno
  generalize write_step env fds p r.2 = w at hWp hWc hWn hoff ⊢
  have hwact : (getSlot w.2.socks p).active ≠ 0 := by rw [hWp]; exact hract
  by_cases hw1 : w.1 = true
  · rw [if_pos hw1] at hoff
    exact absurd hoff hwact
  rw [if_neg hw1] at hoff ⊢
  have hwpeer : (getSlot w.2.socks p).peer = n := by rw [hWp]; exact hRl.2.2.2.trans hpeer
  obtain ⟨_, hCn, _, hCc⟩ := reclaim_step_frame p w.2 (by rw [hwpeer]; exact Ne.symm hne)
  rw [hwpeer] at hCn
  have heq : (getSlot w.2.socks n).bufavail = (getSlot w.2.socks n).bufwritten := by
    by_contra hc
    rw [hCn (Or.inr hc)] at hoff
    exact hwact hoff
  rcases hWn (by simpa using hw1) with hsame | ⟨k, hk1, hk2, hk3⟩
  · rw [hsame, hRn] at heq
    omega
  · rw [hk1, hk2, hRn] at heq
    rw [hRn, hRl.2.1] at hk3
    have hk : ((getSlot st.socks n).bufavail - (getSlot st.socks n).bufwritten).toNat = k := by
      omega
    apply hCc
    unfold unflushed
    rw [hk]
    exact hk3

/-! ## The scan for free slots -/

/-- The scan of lines 195-205 is sound for the slots it finds: an index it returns that is
not the initial 0 belongs to a slot it visited that passes for free, and two such indices
differ. -/
theorem scan_free_sound (socks : List pfwdsock) :
    ∀ (l : List Nat) (a b : Nat), l.Nodup →
      (a ≠ 0 → a ∉ l ∧ is_free socks a = true) →
      (b ≠ 0 → b ∉ l ∧ is_free socks b = true ∧ a ≠ 0 ∧ b ≠ a) →
      ((scan_free socks l a b).1 ≠ 0 →
        is_free socks (scan_free socks l a b).1 = true ∧
        ((scan_free socks l a b).1 = a ∨ (scan_free socks l a b).1 ∈ l)) ∧
      ((scan_free socks l a b).2 ≠ 0 →
        is_free socks (scan_free socks l a b).2 = true ∧
        ((scan_free socks l a b).2 = b ∨ (scan_free socks l a b).2 ∈ l) ∧
        (scan_free socks l a b).1 ≠ 0 ∧
        (scan_free socks l a b).2 ≠ (scan_free socks l a b).1) := by
  intro l
  induction l with
  | nil =>
    intro a b _ ha hb
    unfold scan_free
    exact ⟨fun h => ⟨(ha h).2, Or.inl rfl⟩, fun h => ⟨(hb h).2.1, Or.inl rfl, (hb h).2.2⟩⟩
  | cons x l ih =>
    intro a b hnd ha hb
    have hx : x ∉ l := (List.nodup_cons.mp hnd).1
    have hl : l.Nodup := (List.nodup_cons.mp hnd).2
    unfold scan_free
    dsimp only
    split
    · -- the slot is in use: skipped
      have h := ih a b hl (fun h => ⟨fun hm => (ha h).1 (List.mem_cons_of_mem _ hm), (ha h).2⟩)
        (fun h => ⟨fun hm => (hb h).1 (List.mem_cons_of_mem _ hm), (hb h).2⟩)
      refine ⟨fun h1 => ?_, fun h2 => ?_⟩
      · obtain ⟨hf, hm⟩ := h.1 h1
        exact ⟨hf, hm.imp id (List.mem_cons_of_mem _)⟩
      · obtain ⟨hf, hm, hr⟩ := h.2 h2
        exact ⟨hf, hm.imp id (List.mem_cons_of_mem _), hr⟩
    · rename_i hfree
      have hxf : is_free socks x = true := by
        unfold is_free
        simp only [decide_eq_true_eq]
        simp only [not_or, not_and, not_not] at hfree
        exact ⟨hfree.1, fun hc => by
          have := hfree.2 hc.1
          exact hc.2 this⟩
      split
      · rename_i ha0
        -- newsock takes x
        have hb0 : b = 0 := by
          by_contra hbn
          exact (hb hbn).2.2.1 ha0
        have h := ih x b hl (fun _ => ⟨hx, hxf⟩) (fun h => absurd hb0 h)
        refine ⟨fun h1 => ?_, fun h2 => ?_⟩
        · obtain ⟨hf, hm⟩ := h.1 h1
          refine ⟨hf, Or.inr ?_⟩
          rcases hm with hm | hm
          · rw [hm]; exact List.mem_cons_self _ _
          · exact List.mem_cons_of_mem _ hm
        · obtain ⟨hf, hm, hr⟩ := h.2 h2
          refine ⟨hf, ?_, hr⟩
          rcases hm with hm | hm
          · exact Or.inl hm
          · exact Or.inr (List.mem_cons_of_mem _ hm)
      · rename_i ha0
        split
        · -- peersock takes x
          rename_i hb0
          by_cases hx0 : x = 0
          · -- the index 0 leaves `peersock` as it was
            have h := ih a x hl
              (fun h => ⟨fun hm => (ha h).1 (List.mem_cons_of_mem _ hm), (ha h).2⟩)
              (fun h => absurd hx0 h)
            refine ⟨fun h1 => ?_, fun h2 => ?_⟩
            · obtain ⟨hf, hm⟩ := h.1 h1
              exact ⟨hf, hm.imp id (List.mem_cons_of_mem _)⟩
            · obtain ⟨hf, hm, hr⟩ := h.2 h2
              refine ⟨hf, Or.inr ?_, hr⟩
              rcases hm with hm | hm
              · rw [hm]; exact List.mem_cons_self _ _
              · exact List.mem_cons_of_mem _ hm
          · have hxa : x ≠ a := by
              intro hc
              exact (ha ha0).1 (hc ▸ List.mem_cons_self _ _)
            have h := ih a x hl
              (fun h => ⟨fun hm => (ha h).1 (List.mem_cons_of_mem _ hm), (ha h).2⟩)
              (fun _ => ⟨hx, hxf, ha0, hxa⟩)
            refine ⟨fun h1 => ?_, fun h2 => ?_⟩
            · obtain ⟨hf, hm⟩ := h.1 h1
              exact ⟨hf, hm.imp id (List.mem_cons_of_mem _)⟩
            · obtain ⟨hf, hm, hr⟩ := h.2 h2
              refine ⟨hf, Or.inr ?_, hr⟩
              rcases hm with hm | hm
              · rw [hm]; exact List.mem_cons_self _ _
              · exact List.mem_cons_of_mem _ hm
        · -- both found: the scan stops
          rename_i hb0
          exact ⟨fun h => ⟨(ha h).2, Or.inl rfl⟩,
            fun h => ⟨(hb h).2.1, Or.inl rfl, (hb h).2.2⟩⟩

/-- The scan over the whole table: a result index other than 0 is a slot of the table that
passes for free, and when both indices are other than 0 they differ. -/
theorem scan_free_table (P : PfParams) (socks : List pfwdsock) :
    ((scan_free socks (List.range P.NUM_SOCKS) 0 0).1 ≠ 0 →
      (scan_free socks (List.range P.NUM_SOCKS) 0 0).1 ∈ free_slots P socks) ∧
    ((scan_free socks (List.range P.NUM_SOCKS) 0 0).2 ≠ 0 →
      (scan_free socks (List.range P.NUM_SOCKS) 0 0).2 ∈ free_slots P socks ∧
      (scan_free socks (List.range P.NUM_SOCKS) 0 0).1 ≠ 0 ∧
      (scan_free socks (List.range P.NUM_SOCKS) 0 0).2 ≠
        (scan_free socks (List.range P.NUM_SOCKS) 0 0).1) := by
  have h := scan_free_sound socks (List.range P.NUM_SOCKS) 0 0 (List.nodup_range _)
    (fun h => absurd rfl h) (fun h => absurd rfl h)
  unfold free_slots
  refine ⟨fun h1 => ?_, fun h2 => ?_⟩
  · obtain ⟨hf, hm⟩ := h.1 h1
    rcases hm with hm | hm
    · exact absurd hm h1
    · exact List.mem_filter.mpr ⟨hm, hf⟩
  · obtain ⟨hf, hm, hr⟩ := h.2 h2
    rcases hm with hm | hm
    · exact absurd hm h2
    · exact ⟨List.mem_filter.mpr ⟨hm, hf⟩, hr⟩

/-! ## The connector's failure paths past the address set-up -/

theorem getLast?_append_close (pre calls : List NetCall) (sock : Int)
    (h : calls.getLast? = some (NetCall.close sock)) :
    (pre ++ calls).getLast? = some (NetCall.close sock) := by
  simp [List.getLast?_append, h]

/-- When the bind loop ends the call, its last call is the `close` of the socket. -/
theorem bind_loop_ret_closes (env : ConnEnv) (sock : Int) (s : Nat) :
    ∀ (fuel t : Nat) (rc : Int) (binds : List NetCall),
      bind_loop env sock s fuel t = some (BindEnd.ret rc, binds) →
      binds.getLast? = some (NetCall.close sock) := by
  intro fuel
  induction fuel with
  | zero => intro t rc binds h; simp [bind_loop] at h
  | succ fuel ih =>
    intro t rc binds h
    unfold bind_loop at h
    split at h
    · simp at h
    · split at h
      · simp only [Option.some.injEq, Prod.mk.injEq, BindEnd.ret.injEq] at h
        rw [← h.2]; rfl
      · dsimp only at h
        split at h
        · simp only [Option.some.injEq, Prod.mk.injEq, BindEnd.ret.injEq] at h
          rw [← h.2]; rfl
        · rw [Option.map_eq_some'] at h
          obtain ⟨⟨e, bs⟩, hb, heq⟩ := h
          simp only [Prod.mk.injEq] at heq
          rw [← heq.2]
          have hl := ih _ rc bs (by rw [hb, heq.1])
          exact getLast?_append_close [NetCall.bind sock t] bs sock hl

/-- When `finish_connect` does not return the socket, its last call is the `close` of
the socket. -/
theorem finish_connect_failure_closes (env : ConnEnv) (sock : Int) (flags : Nat)
    (hs : 0 ≤ sock) (hrc : (finish_connect env sock flags).1 < 0) :
    (finish_connect env sock flags).2.getLast? = some (NetCall.close sock) := by
  unfold finish_connect at hrc ⊢
  split at hrc
  · rw [if_pos (by assumption)]; rfl
  · rw [if_neg (by assumption)]
    dsimp only at hrc ⊢
    split at hrc
    · omega
    · rw [if_neg (by assumption)]
      dsimp only
      exact getLast?_append_close _ [NetCall.close sock] sock rfl

/-- When the connect phase does not return the socket, its last call is the `close` of
the socket. -/
theorem connect_phase_failure_closes (fuel : Nat) (env : ConnEnv) (sock : Int) (flags : Nat)
    (rc : Int) (calls : List NetCall) (hs : 0 ≤ sock)
    (h : connect_phase fuel env sock flags = some (rc, calls)) (hrc : rc < 0) :
    calls.getLast? = some (NetCall.close sock) := by
  unfold connect_phase at h
  dsimp only at h
  split at h
  · simp only [Option.some.injEq, Prod.mk.injEq] at h
    rw [← h.2]
    exact getLast?_append_close _ [NetCall.close sock] sock rfl
  · split at h
    · simp only [Option.some.injEq, Prod.mk.injEq] at h
      rw [← h.2]
      exact getLast?_append_close _ _ sock
        (finish_connect_failure_closes env sock flags hs (by rw [h.1]; exact hrc))
    · split at h
      · simp only [Option.some.injEq, Prod.mk.injEq] at h
        rw [← h.2]
        exact getLast?_append_close _ [NetCall.close sock] sock rfl
      · split at h
        · split at h
          · cases h
          · split at h
            · split at h
              · simp only [Option.some.injEq, Prod.mk.injEq] at h
                rw [← h.2]
                exact getLast?_append_close _ [NetCall.close sock] sock rfl
              · simp only [Option.some.injEq, Prod.mk.injEq] at h
                rw [← h.2]
                exact getLast?_append_close _ _ sock
                  (finish_connect_failure_closes env sock flags hs (by rw [h.1]; exact hrc))
            · split at h
              · simp only [Option.some.injEq, Prod.mk.injEq] at h
                rw [← h.2]
                exact getLast?_append_close _ [NetCall.close sock] sock rfl
              · simp only [Option.some.injEq, Prod.mk.injEq] at h
                rw [← h.2]
                exact getLast?_append_close _ [NetCall.close sock] sock rfl
        · simp only [Option.some.injEq, Prod.mk.injEq] at h
          rw [← h.2]
          exact getLast?_append_close _ [NetCall.close sock] sock rfl

/-- Every return of `client_to_svr_extend` with a negative result, apart from the two
returns of the address set-up (malformed `localaddr`, unresolved public host name), is
preceded by the `close` of the socket the call created. -/
theorem failure_past_address_setup_closes (fuel : Nat) (env : ConnEnv) (sp flags : Nat)
    (la : Option Unit) (r : ConnResult)
    (h : client_to_svr_extend fuel env sp flags la = some r) (hs : 0 ≤ env.socket)
    (hrc : r.ret < 0)
    (hok : flags &&& B_RESERVED ≠ 0 →
      ¬ (la.isSome ∧ env.inet_addr = INADDR_NONE) ∧
      ¬ (la.isNone ∧ env.pbs_public_host_name = true ∧ env.get_hostaddr = 0)) :
    r.calls.getLast? = some (NetCall.close env.socket) := by
  have hns : ¬ env.socket < 0 := by omega
  unfold client_to_svr_extend at h
  dsimp only at h
  split at h
  · rename_i hres
    rw [if_neg (hok hres).1, if_neg (hok hres).2] at h
    split at h
    · cases h
    · rename_i rc binds hb
      simp only [Option.some.injEq] at h
      rw [← h]
      exact getLast?_append_close _ _ _ (bind_loop_ret_closes env _ _ _ _ _ _ hb)
    · split at h
      · cases h
      · rename_i rc calls hc
        simp only [Option.some.injEq] at h
        rw [← h] at hrc ⊢
        exact getLast?_append_close _ _ _
          (connect_phase_failure_closes fuel env _ flags rc calls hs hc hrc)
  · split at h
    · cases h
    · rename_i rc calls hc
      simp only [Option.some.injEq] at h
      rw [← h] at hrc ⊢
      exact getLast?_append_close [NetCall.socket env.socket] _ _
        (connect_phase_failure_closes fuel env _ flags rc calls hs hc hrc)

/-! ## Claims on slot allocation, teardown and descriptor use -/

set_option maxRecDepth 100000 in
/-- C11. From the caller's table, a pass in which `accept` yields descriptor 10 and the
dial-out callback returns `-1` leaves the dial-out-side slot 2 (the one that holds
descriptor 10 as `remotesock`) inactive with a drained buffer, while the accepted-side
slot 1 keeps peer index 0, not 2. Two passes later, in both of which slot 1 was processed
and in the second of which it read two bytes, slot 1 is still active on descriptor 10 and
no `close` of descriptor 10 was issued. -/
theorem failed_dial_out_leaves_accepted_side_active :
    (getSlot (port_forwarder demo_params quiet_env failed_dial_run demo_table).socks 2).remotesock
      = 10 ∧
    (getSlot (port_forwarder demo_params quiet_env failed_dial_run demo_table).socks 2).active
      = 0 ∧
    (getSlot (port_forwarder demo_params quiet_env failed_dial_run demo_table).socks 2).bufavail
      = (getSlot (port_forwarder demo_params quiet_env failed_dial_run demo_table).socks 2).bufwritten ∧
    (getSlot (port_forwarder demo_params quiet_env failed_dial_run demo_table).socks 1).sock
      = 10 ∧
    (getSlot (port_forwarder demo_params quiet_env failed_dial_run demo_table).socks 1).active
      = 1 ∧
    (getSlot (port_forwarder demo_params quiet_env failed_dial_run demo_table).socks 1).peer
      = 0 ∧
    PfCall.read 1 10 8192 (SysRet.ok [72, 73]) ∈
      (port_forwarder demo_params quiet_env failed_dial_run demo_table).calls ∧
    PfCall.close 10 ∉ (port_forwarder demo_params quiet_env failed_dial_run demo_table).calls := by
  decide

set_option maxHeartbeats 4000000 in
set_option maxRecDepth 1000000 in
/-- The table with 31 forwarded connections is the one `port_forwarder` reaches from the
caller's table after it accepted 31 connections. -/
theorem accept_burst_table :
    (port_forwarder demo_params quiet_env (accept_burst 31) demo_table).socks = burst_table := by
  rfl

set_option maxRecDepth 100000 in
/-- C12. In the table with 31 forwarded connections, reached from the caller's table by
31 accepts, slot 63 is the only slot that passes for free and slot 0 is the active
listening slot on descriptor 3. The scan of the next accept ends with `newsock = 63` and
`peersock = 0`: the accepted descriptor 262 goes to slot 63, and the listening slot 0 is
turned into the dial-out side (descriptor 263, no longer listening, peer 63), although it
was in use; descriptor 3 is not closed. -/
theorem accept_on_crowded_table_takes_listening_slot :
    (port_forwarder demo_params quiet_env (accept_burst 31) demo_table).socks = burst_table ∧
    free_slots demo_params burst_table = [63] ∧
    (getSlot burst_table 0).sock = 3 ∧
    (getSlot burst_table 0).listening = 1 ∧
    (getSlot burst_table 0).active = 1 ∧
    is_free burst_table 0 = false ∧
    scan_free burst_table (List.range demo_params.NUM_SOCKS) 0 0 = (63, 0) ∧
    getSlot (main_iter demo_params { socks := burst_table, calls := [], done := false }
      (accept_env 262 263)).socks 63 =
      { pfwdsock.zero with sock := 262, active := 1, peer := 0, buff := [0] } ∧
    getSlot (main_iter demo_params { socks := burst_table, calls := [], done := false }
      (accept_env 262 263)).socks 0 =
      { pfwdsock.zero with sock := 263, remotesock := 262, active := 1, peer := 63,
                           buff := [0] } ∧
    PfCall.close 3 ∉ (main_iter demo_params { socks := burst_table, calls := [], done := false }
      (accept_env 262 263)).calls :=
  ⟨accept_burst_table, by decide, by decide, by decide, by decide, by decide, by decide,
    by decide, by decide, by decide⟩

/-- C14. With `B_RESERVED` set and the socket created (descriptor 5), a malformed
`localaddr` makes `client_to_svr_extend` return `PBS_NET_RC_FATAL` after `perror`, and a
configured public host name that does not resolve makes it return `PBS_NET_RC_FATAL`
after `get_hostaddr`; in both calls no `close` of descriptor 5 is issued. -/
theorem address_setup_failure_leaks_socket :
    client_to_svr_extend 600 malformed_localaddr_conn 0 B_RESERVED (some ()) =
      some { ret := PBS_NET_RC_FATAL, start_port := 615,
             calls := [NetCall.socket 5, NetCall.getpid, NetCall.inet_addr, NetCall.perror] } ∧
    NetCall.close 5 ∉ [NetCall.socket 5, NetCall.getpid, NetCall.inet_addr, NetCall.perror] ∧
    client_to_svr_extend 600 unresolved_host_conn 0 B_RESERVED none =
      some { ret := PBS_NET_RC_FATAL, start_port := 615,
             calls := [NetCall.socket 5, NetCall.getpid, NetCall.get_hostaddr] } ∧
    NetCall.close 5 ∉ [NetCall.socket 5, NetCall.getpid, NetCall.get_hostaddr] := by
  decide

set_option maxRecDepth 100000 in
/-- C15. Two runs from the caller's table, each with a pair on slots 1 and 2 (descriptors
13 and 14). In the first, descriptor 13 is readable and writable in the third pass and
`read` returns 0: the read step closes descriptor 13, the write step of the same pass
then calls `write` on it and, as that fails, `shutdown` and `close` once more. In the
second, slot 2 was torn down in the second pass and `read` on descriptor 13 returns 0 in
the third: the read step closes descriptor 13 and the cascading teardown of the same pass
calls `shutdown` and `close` on it again. -/
theorem slot_socket_used_after_close :
    last_pass (port_forwarder demo_params quiet_env write_after_close_run demo_table).calls =
      [PfCall.read 1 13 8192 (SysRet.ok []), PfCall.shutdown 13, PfCall.close 13,
       PfCall.write 1 13 4 (SysRet.error 9) [], PfCall.shutdown 13, PfCall.close 13,
       PfCall.log (PfMsg.write_failure 13), PfCall.shutdown 14, PfCall.close 14] ∧
    used_after_close 13
      (port_forwarder demo_params quiet_env write_after_close_run demo_table).calls =
      [PfCall.write 1 13 4 (SysRet.error 9) [], PfCall.shutdown 13, PfCall.close 13] ∧
    last_pass (port_forwarder demo_params quiet_env double_close_run demo_table).calls =
      [PfCall.read 1 13 8192 (SysRet.ok []), PfCall.shutdown 13, PfCall.close 13,
       PfCall.shutdown 13, PfCall.close 13] ∧
    used_after_close 13
      (port_forwarder demo_params quiet_env double_close_run demo_table).calls =
      [PfCall.shutdown 13, PfCall.close 13] ∧
    (port_forwarder demo_params quiet_env double_close_run demo_table).calls.count
      (PfCall.close 13) = 2 := by
  decide

/-- What holds pass by pass for two different slots that point at each other. When slot
`n`, an active data slot whose peer index is `p`, is reported readable and `read` returns
0 while its buffer holds unflushed bytes, and `p` is an active data slot whose peer index
is `n`, the pass over slot `n` closes its descriptor and clears `active`, and leaves every
other field of slot `n` (buffer contents, `bufavail`, `bufwritten`) as it was; slot `p` is
still an active data slot with peer `n`. In every table in which that holds, `select` is
asked whether `p`'s descriptor is writable. And a pass over slot `p` in such a state
leaves `p` inactive only if an operation on `p`'s own descriptor ended it (`read` or
`write` failed or returned 0) or the pass wrote every byte that was still unflushed in
`n`'s buffer at the start of that pass on `p`'s descriptor. Nothing is said about what
other slots do to `n`'s buffer between the passes. -/
theorem paired_orderly_close_pass (P : PfParams) (env : IterEnv) (fds : FdSets)
    (st : PfState) (n p : Nat) (h : OrderlyClose P env fds st n p) :
    PfCall.close (getSlot st.socks n).sock ∈ (slot_pass P env fds st n).calls ∧
    getSlot (slot_pass P env fds st n).socks n = { getSlot st.socks n with active := 0 } ∧
    Draining P (slot_pass P env fds st n).socks n p ∧
    (∀ socks2, Draining P socks2 n p → (watch P socks2).w (getSlot socks2 p).sock = true) ∧
    (∀ env2 fds2 st2, Draining P st2.socks n p →
      (getSlot (slot_pass P env2 fds2 st2 p).socks p).active = 0 →
      OwnIoEnds P env2 fds2 st2 p ∨
      PfCall.write p (getSlot st2.socks p).sock
        ((getSlot st2.socks n).bufavail - (getSlot st2.socks n).bufwritten)
        (SysRet.ok ((getSlot st2.socks n).bufavail - (getSlot st2.socks n).bufwritten).toNat)
        (unflushed (getSlot st2.socks n)) ∈ (slot_pass P env2 fds2 st2 p).calls) := by
  obtain ⟨hc, hn, hp⟩ := slot_pass_orderly_close P env fds st n p h
  obtain ⟨hd, _⟩ := h
  obtain ⟨hpN, hne, hact, hsock, hlis, hpeer, hw0, hlt⟩ := hd
  refine ⟨hc, hn, ?_, fun socks2 h2 => watch_draining P socks2 n p h2,
    fun env2 fds2 st2 h2 hoff => slot_pass_draining P env2 fds2 st2 n p h2 hoff⟩
  refine ⟨hpN, hne, ?_, ?_, ?_, ?_, ?_, ?_⟩
  · rw [hp.1]; exact hact
  · rw [hp.2.1]; exact hsock
  · rw [hp.2.2.1]; exact hlis
  · rw [hp.2.2.2]; exact hpeer
  · rw [hn]; exact hw0
  · rw [hn]; exact hlt

set_option maxRecDepth 100000 in
/-- An instance of `paired_orderly_close_pass`: in the table with four unflushed bytes
in slot 1, descriptor 13 of slot 1 reports the end of its stream. Slot 1 is torn down and keeps its four bytes, and
slot 2 goes on draining them; in the run of that pass and a next one, in which descriptor
14 of slot 2 is writable, the four bytes go out on descriptor 14 before the cascade closes
it. -/
theorem paired_orderly_close_example :
    OrderlyClose demo_params (read_env [13] [])
      (selected (read_env [13] []) (watch demo_params pending_table))
      { socks := pending_table, calls := [], done := false } 1 2 ∧
    getSlot (slot_pass demo_params (read_env [13] [])
      (selected (read_env [13] []) (watch demo_params pending_table))
      { socks := pending_table, calls := [], done := false } 1).socks 1 =
      { pfwdsock.zero with sock := 13, bufavail := 4, active := 0, peer := 2,
                           buff := [80, 73, 78, 71] } ∧
    Draining demo_params (slot_pass demo_params (read_env [13] [])
      (selected (read_env [13] []) (watch demo_params pending_table))
      { socks := pending_table, calls := [], done := false } 1).socks 1 2 ∧
    (forward_loop demo_params [read_env [13] [], write_all_env]
      { socks := pending_table, calls := [], done := false }).calls =
      [PfCall.select, PfCall.read 1 13 8188 (SysRet.ok []), PfCall.shutdown 13,
       PfCall.close 13, PfCall.select, PfCall.write 2 14 4 (SysRet.ok 4) [80, 73, 78, 71],
       PfCall.shutdown 14, PfCall.close 14] :=
  have h : OrderlyClose demo_params (read_env [13] [])
      (selected (read_env [13] []) (watch demo_params pending_table))
      { socks := pending_table, calls := [], done := false } 1 2 :=
    ⟨⟨by decide, by decide, by decide, by decide, by decide, by decide, by decide, by decide⟩,
      by decide, by decide, by decide, by decide, by decide, by decide⟩
  ⟨h, (paired_orderly_close_pass demo_params _ _ _ 1 2 h).2.1,
    (paired_orderly_close_pass demo_params _ _ _ 1 2 h).2.2.1, by decide⟩

set_option maxRecDepth 100000 in
/-- C13. In the nine-pass run, slots 1 and 2 (descriptors 13 and 14) are paired by the
fourth pass. Before the sixth pass slot 2 is an active data slot whose buffer holds the
four unflushed bytes `80 73 78 71`, and its peer, slot 1, is active. In the sixth pass
`read` on descriptor 14 returns 0: slot 2 is torn down and keeps its buffer and counters.
At the end of the run slot 1 has been closed by the cascading teardown, although the only
bytes written on its descriptor 13 are `78 71` and no `read` or `write` on descriptor 13
failed or returned 0: the other two bytes went out on descriptor 15 of slot 3. -/
theorem orderly_close_bytes_go_astray :
    getSlot (port_forwarder demo_params quiet_env (stolen_bytes_run.take 5) demo_table).socks 2 =
      { pfwdsock.zero with sock := 14, remotesock := 13, bufavail := 4, bufwritten := 0,
                           active := 1, peer := 1, buff := [80, 73, 78, 71] } ∧
    getSlot (port_forwarder demo_params quiet_env (stolen_bytes_run.take 5) demo_table).socks 1 =
      { pfwdsock.zero with sock := 13, active := 1, peer := 2, buff := [0] } ∧
    last_pass (port_forwarder demo_params quiet_env (stolen_bytes_run.take 6) demo_table).calls =
      [PfCall.read 2 14 8188 (SysRet.ok []), PfCall.shutdown 14, PfCall.close 14] ∧
    getSlot (port_forwarder demo_params quiet_env (stolen_bytes_run.take 6) demo_table).socks 2 =
      { pfwdsock.zero with sock := 14, remotesock := 13, bufavail := 4, bufwritten := 0,
                           active := 0, peer := 1, buff := [80, 73, 78, 71] } ∧
    (port_forwarder demo_params quiet_env stolen_bytes_run demo_table).calls.filter (on_socket 13) =
      [PfCall.write 1 13 2 (SysRet.ok 2) [78, 71], PfCall.shutdown 13, PfCall.close 13] ∧
    last_pass (port_forwarder demo_params quiet_env stolen_bytes_run demo_table).calls =
      [PfCall.write 1 13 2 (SysRet.ok 2) [78, 71], PfCall.shutdown 13, PfCall.close 13,
       PfCall.shutdown 15, PfCall.close 15] ∧
    (getSlot (port_forwarder demo_params quiet_env stolen_bytes_run demo_table).socks 1).active
      = 0 ∧
    PfCall.write 3 15 4 (SysRet.ok 2) [80, 73] ∈
      (port_forwarder demo_params quiet_env stolen_bytes_run demo_table).calls := by
  decide

end Libnet
